import Mathlib

/-!
Buruvaali v3 — a searchable replacement widget for a native select control.

Shallow embedding of `src/buruvaali-v3.js` (class `Buruvaali`).

* JavaScript strings are lists of characters.
* The native `<select>` element is its `multiple` flag, its display size and the
  ordered list of its options; an option carries its character data, its `value`
  attribute when it has one, its selectedness and whether it is disabled. Setting
  `selected` and appending an option follow the HTML standard, including the
  selectedness setting algorithm of a control without `multiple`.
* `querySelector('option[value="v"]')` is the first option whose `value` attribute is
  `v` when `v` has no double quote, backslash, line break or NUL, so that the selector
  text spells `v` as one CSS string; for other values the result comes from an `Env`.
* `String.prototype.toLowerCase` (the Unicode case tables) and the text a row
  shows after its label went through `innerHTML` are supplied by an `Env`.
* A `SyntaxError` thrown by `querySelector` ends the running listener; the state it
  leaves is the state of the model, and `syncToSelectThrows` tells whether it happened.
* CSS classes, colours, focus and scrolling are presentation only and are left out.
-/

namespace Buruvaali

/-- JavaScript string. -/
abbrev Str := List Char

/-- Widget option `{ label, value }`. -/
structure Opt where
  label : Str
  value : Str
deriving DecidableEq, Repr

/-- One `<option>` of the native control. -/
structure NativeOption where
  /-- Character data of the option, what `textContent` holds. -/
  textContent : Str
  /-- The `value` content attribute, when the option has one. -/
  valueAttr : Option Str
  /-- Selectedness of the option. -/
  selected : Bool
  /-- Whether the option is disabled. -/
  disabled : Bool
deriving DecidableEq, Repr

/-- The native `<select>` element the widget wraps. -/
structure SelectElement where
  /-- The list of options, in tree order. -/
  options : List NativeOption
  /-- Whether the `multiple` attribute is present. -/
  multiple : Bool
  /-- The display size: the parsed `size` attribute, else 4 with `multiple` and 1 without. -/
  displaySize : Nat
deriving DecidableEq, Repr

/-- Outcome of a `querySelector` call. -/
inductive QueryResult where
  /-- The selector text is not a selector: `SyntaxError` is thrown. -/
  | syntaxError
  /-- No element matches: `null`. -/
  | null
  /-- The first matching option is number `i` of the list of options. -/
  | found (i : Nat)
deriving DecidableEq, Repr

/-- Click listener attached to a rendered row by `renderOptions`. -/
inductive RowClick where
  /-- Listener `() => this.createAndSelect(this.input.value)` (line 84). -/
  | createFromInput
  /-- The "No options found" row has no listener. -/
  | nothing
  /-- Listener `() => this.select(opt)` (line 111). -/
  | select (opt : Opt)
deriving DecidableEq, Repr

/-- Rendered row of the dropdown: its text and its click listener. -/
structure Row where
  textContent : Str
  onClick : RowClick
deriving DecidableEq, Repr

/-- Host-provided functions the source calls but does not define. -/
structure Env where
  /-- The builtin `String.prototype.toLowerCase`. -/
  toLowerCase : Str → Str
  /-- Text content of a row after `el.innerHTML = label.replace(regex, '<mark>$1</mark>')`,
  given the search text and the label (lines 105-106). -/
  markedText : Str → Str → Str
  /-- Result of `selectEl.querySelector('option[value="' + v + '"]')` for a value `v` that
  holds a double quote, a backslash, a line break or NUL, where the selector text no longer
  spells `v` as one CSS string (line 176). -/
  querySelectorEscaped : Str → List NativeOption → QueryResult

/-- Fields of a `Buruvaali` instance. -/
structure Widget where
  selectEl : SelectElement
  multiple : Bool
  creatable : Bool
  placeholder : Str
  options : List Opt
  selected : List Opt
  currentIndex : Int
  inputValue : Str
  filteredOptions : List Opt
  optionEls : List Row
  dropdownOpen : Bool
  displayText : Str
  tags : List Opt
deriving DecidableEq, Repr

/-- Keys distinguished by `handleKeys`. -/
inductive Key where
  | arrowDown
  | arrowUp
  | enter
  | backspace
  | other
deriving DecidableEq, Repr

/-- Method call made by the Enter branch of `handleKeys`. -/
inductive Call where
  | nothing
  | createAndSelect (label : Str)
  | select (opt : Opt)
deriving DecidableEq, Repr

/-! ## String primitives -/

/-- ECMAScript `WhiteSpace` and `LineTerminator` code points: what `trim` strips and
what `\s` matches. -/
def isWhiteSpace (c : Char) : Bool :=
  let n := c.toNat
  n == 9 || n == 10 || n == 11 || n == 12 || n == 13 || n == 32 || n == 160 ||
  n == 5760 || (8192 ≤ n && n ≤ 8202) || n == 8232 || n == 8233 || n == 8239 ||
  n == 8287 || n == 12288 || n == 65279

/-- `String.prototype.trim`. -/
def trim (s : Str) : Str :=
  (s.dropWhile isWhiteSpace).rdropWhile isWhiteSpace

/-- `String.prototype.startsWith`. -/
def startsWith (s p : Str) : Bool :=
  p.isPrefixOf s

/-- `String.prototype.includes`: scan for the first position where `t` matches. -/
def includes : Str → Str → Bool
  | [], t => t.isPrefixOf []
  | c :: s, t => t.isPrefixOf (c :: s) || includes s t

/-- `s.replace(/\s+/g, "_")`: scanning left to right, the first character of a
whitespace run emits `_` and the rest of the run is consumed. `inRun` records
that the previous character belonged to the run being consumed. -/
def replaceRunsFrom (inRun : Bool) : Str → Str
  | [] => []
  | c :: s =>
    if isWhiteSpace c then
      if inRun then replaceRunsFrom true s else '_' :: replaceRunsFrom true s
    else c :: replaceRunsFrom false s

/-- `s.replace(/\s+/g, "_")`. -/
def replaceWhitespaceRuns (s : Str) : Str :=
  replaceRunsFrom false s

/-- Array indexing `xs[i]` with a JavaScript number: `undefined` outside the array. -/
def jsIndex {α : Type} (xs : List α) (i : Int) : Option α :=
  if i < 0 then none else xs[i.toNat]?

/-- ASCII lowercasing, which is what `toLowerCase` does on ASCII strings. -/
def asciiLower (s : Str) : Str :=
  s.map Char.toLower

/-- An environment for evaluating the model on ASCII inputs that contain no HTML
markup: the text of a marked-up label is the label, and a selector built from a value
with a double quote in it is a syntax error. -/
def asciiEnv : Env :=
  { toLowerCase := asciiLower
    markedText := fun _ label => label
    querySelectorEscaped := fun _ _ => QueryResult.syntaxError }

/-! ## Native control -/

/-- ASCII whitespace of the HTML standard. -/
def isAsciiWhitespace (c : Char) : Bool :=
  let n := c.toNat
  n == 9 || n == 10 || n == 12 || n == 13 || n == 32

/-- Replace every run of ASCII whitespace by one space. `inRun` records that the previous
character belonged to the run being replaced. -/
def collapseFrom (inRun : Bool) : Str → Str
  | [] => []
  | c :: s =>
    if isAsciiWhitespace c then
      if inRun then collapseFrom true s else ' ' :: collapseFrom true s
    else c :: collapseFrom false s

/-- Strip and collapse ASCII whitespace: runs become one space, then leading and trailing
whitespace is removed. -/
def stripAndCollapse (s : Str) : Str :=
  ((collapseFrom false s).dropWhile isAsciiWhitespace).rdropWhile isAsciiWhitespace

/-- The `text` property of an option: its character data, stripped and collapsed. -/
def NativeOption.text (o : NativeOption) : Str :=
  stripAndCollapse o.textContent

/-- The `value` property of an option: the `value` attribute, else the `text`. -/
def NativeOption.value (o : NativeOption) : Str :=
  match o.valueAttr with
  | some v => v
  | none => o.text

/-- Whether `'option[value="' + v + '"]'` spells `v` as one CSS string: no double quote,
backslash, line feed, carriage return, form feed or NUL in `v`. -/
def selectorSafe (v : Str) : Bool :=
  v.all (fun c =>
    let n := c.toNat
    !(n == 0 || n == 10 || n == 12 || n == 13 || n == 34 || n == 92))

/-- Position of the first element satisfying `p`. -/
def firstIndex {α : Type} (p : α → Bool) : List α → Option Nat
  | [] => none
  | a :: l => if p a then some 0 else (firstIndex p l).map (fun i => i + 1)

/-- Apply `f` to element number `i`, if there is one. -/
def modifyAt {α : Type} (f : α → α) : Nat → List α → List α
  | _, [] => []
  | 0, a :: l => f a :: l
  | i + 1, a :: l => a :: modifyAt f i l

/-- The call `selectEl.querySelector('option[value="' + v + '"]')` (line 176). -/
def queryOptionByValue (env : Env) (v : Str) (os : List NativeOption) : QueryResult :=
  if selectorSafe v then
    match firstIndex (fun o => decide (o.valueAttr = some v)) os with
    | some i => QueryResult.found i
    | none => QueryResult.null
  else env.querySelectorEscaped v os

/-- Set the selectedness of the first option that is not disabled. -/
def selectFirstEnabled : List NativeOption → List NativeOption
  | [] => []
  | o :: os =>
    if o.disabled then o :: selectFirstEnabled os
    else { o with selected := true } :: os

/-- Clear the selectedness of every selected option but the last one. -/
def keepLastSelected : List NativeOption → List NativeOption
  | [] => []
  | o :: os =>
    if o.selected && os.any (fun x => x.selected) then
      { o with selected := false } :: keepLastSelected os
    else o :: keepLastSelected os

/-- Number of options whose selectedness is true. -/
def countSelected (os : List NativeOption) : Nat :=
  (os.filter (fun o => o.selected)).length

/-- The selectedness setting algorithm of the HTML standard, run when an option asks for a
reset or the list of options changes, for a control without `multiple`. -/
def selectednessSetting (el : SelectElement) : SelectElement :=
  if el.multiple then el
  else if el.displaySize = 1 ∧ el.options.any (fun o => o.selected) = false then
    { el with options := selectFirstEnabled el.options }
  else if 2 ≤ countSelected el.options then
    { el with options := keepLastSelected el.options }
  else el

/-- Select option number `i` and clear every other option. -/
def selectOnly (i : Nat) : List NativeOption → List NativeOption
  | [] => []
  | o :: os =>
    match i with
    | 0 => { o with selected := true } :: os.map (fun x => { x with selected := false })
    | j + 1 => { o with selected := false } :: selectOnly j os

/-- The assignment `opt.selected = b` on option number `i`: the selectedness is set, without
`multiple` selecting an option clears all the others, and the option asks for a reset. -/
def setSelected (el : SelectElement) (i : Nat) (b : Bool) : SelectElement :=
  if i < el.options.length then
    if b = true ∧ el.multiple = false then
      selectednessSetting { el with options := selectOnly i el.options }
    else
      selectednessSetting
        { el with options := modifyAt (fun o => { o with selected := b }) i el.options }
  else el

/-- The loop `querySelectorAll("option").forEach(opt => opt.selected = false)` (line 174),
from option number `i` on, `n` options to go. -/
def clearFrom (el : SelectElement) (i : Nat) : Nat → SelectElement
  | 0 => el
  | n + 1 => clearFrom (setSelected el i false) (i + 1) n

/-- The loop `querySelectorAll("option").forEach(opt => opt.selected = false)` (line 174). -/
def clearSelected (el : SelectElement) : SelectElement :=
  clearFrom el 0 el.options.length

/-- The call `selectEl.appendChild(opt)` for a new option (line 181): the list of options
grows and, without `multiple`, the selectedness setting algorithm runs. -/
def appendOption (el : SelectElement) (o : NativeOption) : SelectElement :=
  selectednessSetting { el with options := el.options ++ [o] }

/-- Body of the `forEach` in `syncToSelect` (lines 175-184); `none` when `querySelector`
throws. -/
def syncOne (env : Env) (el : SelectElement) (sel : Opt) : Option SelectElement :=
  match queryOptionByValue env sel.value el.options with
  | QueryResult.syntaxError => none
  | QueryResult.found i => some (setSelected el i true)
  | QueryResult.null =>
    some (setSelected
      (appendOption el
        { textContent := sel.label, valueAttr := some sel.value, selected := false,
          disabled := false })
      el.options.length true)

/-- The `forEach` over `this.selected` in `syncToSelect` (lines 175-184): the control it
leaves, and whether it was cut short by a `SyntaxError`. -/
def syncLoop (env : Env) : SelectElement → List Opt → SelectElement × Bool
  | el, [] => (el, false)
  | el, sel :: rest =>
    match syncOne env el sel with
    | none => (el, true)
    | some el1 => syncLoop env el1 rest

/-- An option with its selectedness cleared. -/
def unselect (o : NativeOption) : NativeOption := { o with selected := false }

/-- The `{ label: o.text, value: o.value }` object `syncFromSelect` builds from an option. -/
def toOpt (o : NativeOption) : Opt := { label := o.text, value := o.value }

/-- `selectEl.selectedOptions` mapped to `{ label: o.text, value: o.value }`. -/
def selectedOptions (os : List NativeOption) : List Opt :=
  (os.filter (fun o => o.selected)).map toOpt

/-- Values of the options flagged selected, in document order. -/
def selectedValues (os : List NativeOption) : List Str :=
  (selectedOptions os).map Opt.value

/-- Flag every option whose value is in `vs`. -/
def flagValues (vs : List Str) (os : List NativeOption) : List NativeOption :=
  os.map (fun o => if o.value ∈ vs then { o with selected := true } else o)

/-! ## Methods -/

/-- Method `updateDisplay` (lines 144-171). -/
def updateDisplay (w : Widget) : Widget :=
  match w.selected with
  | [] => { w with tags := [], displayText := w.placeholder }
  | first :: _ =>
    if w.multiple then { w with tags := w.selected, displayText := [] }
    else { w with tags := [], displayText := first.label }

/-- Method `syncToSelect` (lines 173-185): the state it leaves, whether it returned or
threw. -/
def syncToSelect (env : Env) (w : Widget) : Widget :=
  { w with selectEl := (syncLoop env (clearSelected w.selectEl) w.selected).1 }

/-- Whether `syncToSelect` ends with a `SyntaxError` from `querySelector` (line 176). -/
def syncToSelectThrows (env : Env) (w : Widget) : Bool :=
  (syncLoop env (clearSelected w.selectEl) w.selected).2

/-- Method `syncFromSelect` (lines 187-193). -/
def syncFromSelect (w : Widget) : Widget :=
  updateDisplay { w with selected := selectedOptions w.selectEl.options }

/-- Method `renderOptions` (lines 75-117). -/
def renderOptions (env : Env) (w : Widget) : Widget :=
  if w.filteredOptions.length = 0 ∧ w.creatable = true ∧ trim w.inputValue ≠ [] then
    { w with optionEls :=
        [{ textContent := "+ Create \"".toList ++ w.inputValue ++ "\"".toList,
           onClick := RowClick.createFromInput }] }
  else if w.filteredOptions.length = 0 then
    { w with optionEls :=
        [{ textContent := "No options found".toList, onClick := RowClick.nothing }] }
  else
    { w with optionEls := w.filteredOptions.map (fun opt =>
        { textContent :=
            if trim w.inputValue ≠ [] then env.markedText w.inputValue opt.label
            else opt.label,
          onClick := RowClick.select opt }) }

/-- Method `filter` (lines 66-73). -/
def filter (env : Env) (w : Widget) (term : Str) : Widget :=
  let t := trim (env.toLowerCase term)
  let filtered := w.options.filter (fun opt => includes (env.toLowerCase opt.label) t)
  let w1 := { w with filteredOptions := filtered }
  let w2 := renderOptions env w1
  { w2 with currentIndex := -1 }

/-- Method `open` (lines 195-199). -/
def openDropdown (env : Env) (w : Widget) : Widget :=
  filter env { w with dropdownOpen := true } w.inputValue

/-- Method `close` (lines 201-206). -/
def close (env : Env) (w : Widget) : Widget :=
  filter env { w with dropdownOpen := false, currentIndex := -1, inputValue := [] } []

/-- Method `select` (lines 119-130). -/
def select (env : Env) (w : Widget) (opt : Opt) : Widget :=
  let w1 :=
    if w.multiple then
      if ¬ (w.selected.any (fun s => s.value = opt.value)) then
        { w with selected := w.selected ++ [opt] }
      else w
    else close env { w with selected := [opt] }
  syncToSelect env (updateDisplay w1)

/-- The value key computed on line 133. -/
def deriveValue (env : Env) (label : Str) : Str :=
  replaceWhitespaceRuns (env.toLowerCase label)

/-- Method `createAndSelect` (lines 132-142). When `syncToSelect` throws, the call to
`close` on line 141 is not reached. -/
def createAndSelect (env : Env) (w : Widget) (label : Str) : Widget :=
  let value := deriveValue env label
  let newOpt : Opt := { label := label, value := value }
  let w1 :=
    if ¬ (w.options.any (fun o => o.value = value)) then
      { w with options := w.options ++ [newOpt] }
    else w
  let w2 := { w1 with selected := w1.selected ++ [newOpt] }
  let w3 := updateDisplay w2
  if syncToSelectThrows env w3 then syncToSelect env w3
  else close env (syncToSelect env w3)

/-- Click listener of a tag's close button (lines 158-163). -/
def removeTag (env : Env) (w : Widget) (opt : Opt) : Widget :=
  syncToSelect env (updateDisplay
    { w with selected := w.selected.filter (fun s => s.value ≠ opt.value) })

/-- JavaScript `%` on integers: the remainder takes the sign of the dividend (a zero
remainder of a negative dividend is `-0`, which indexes and compares as `0`). -/
def jsRem (a b : Int) : Int :=
  Int.tmod a b

/-- Method `moveIndex` (lines 233-239). -/
def moveIndex (w : Widget) (step : Int) : Widget :=
  if w.optionEls.length = 0 then w
  else
    { w with currentIndex :=
        jsRem (w.currentIndex + step + w.optionEls.length) w.optionEls.length }

/-- The call the Enter branch of `handleKeys` makes (lines 217-224). -/
def enterCall (w : Widget) : Call :=
  match jsIndex w.optionEls w.currentIndex with
  | none => Call.nothing
  | some active =>
    if startsWith active.textContent "+ Create".toList then
      Call.createAndSelect w.inputValue
    else
      match jsIndex w.filteredOptions w.currentIndex with
      | some opt => Call.select opt
      | none => Call.nothing

/-- Carry out a call chosen by `enterCall`. -/
def runCall (env : Env) (w : Widget) : Call → Widget
  | Call.nothing => w
  | Call.createAndSelect label => createAndSelect env w label
  | Call.select opt => select env w opt

/-- Method `handleKeys` (lines 208-231). -/
def handleKeys (env : Env) (w : Widget) : Key → Widget
  | Key.arrowDown => moveIndex w 1
  | Key.arrowUp => moveIndex w (-1)
  | Key.enter => runCall env w (enterCall w)
  | Key.backspace =>
    if w.multiple = true ∧ w.inputValue = [] ∧ w.selected.length > 0 then
      syncToSelect env (updateDisplay { w with selected := w.selected.dropLast })
    else w
  | Key.other => w

/-- Clicking a rendered row runs its listener. -/
def clickRow (env : Env) (w : Widget) (r : Row) : Widget :=
  match r.onClick with
  | RowClick.createFromInput => createAndSelect env w w.inputValue
  | RowClick.nothing => w
  | RowClick.select opt => select env w opt

/-- The `input` listener (line 59), after the browser stored the typed text. -/
def onInput (env : Env) (w : Widget) (text : Str) : Widget :=
  filter env { w with inputValue := text } text

/-- Text of the default placeholder. -/
def defaultPlaceholder : Str := "Select...".toList

/-- The constructor (lines 8-55) for the native control `el`, `creatable` telling whether
it has the `creatable` class. -/
def constructFrom (env : Env) (el : SelectElement) (creatable : Bool) : Widget :=
  let placeholder :=
    match el.options.find? (fun o => decide (o.valueAttr = some [])) with
    | some o => if o.text = [] then defaultPlaceholder else o.text
    | none => defaultPlaceholder
  let w : Widget :=
    { selectEl := el
      multiple := el.multiple
      creatable := creatable
      placeholder := placeholder
      options := (el.options.filter (fun o => o.value ≠ [])).map toOpt
      selected := []
      currentIndex := -1
      inputValue := []
      filteredOptions := []
      optionEls := []
      dropdownOpen := false
      displayText := placeholder
      tags := [] }
  filter env (syncFromSelect w) []

/-- The constructor (lines 8-55), for a native control without `size` attribute that has
the given options, `multiple` property and `creatable` class. -/
def construct (env : Env) (els : List NativeOption) (multiple creatable : Bool) : Widget :=
  constructFrom env
    { options := els, multiple := multiple, displaySize := if multiple then 4 else 1 }
    creatable

/-- The enabled option `<option value="value">text</option>`, selected or not. -/
def nativeOption (text value : Str) (selected : Bool) : NativeOption :=
  { textContent := text, valueAttr := some value, selected := selected, disabled := false }

/-! ## Events -/

/-- User events a constructed widget reacts to. -/
inductive Event where
  /-- The user edits the search box to hold `text` (the `input` listener). -/
  | input (text : Str)
  /-- Click on the selection region (`open`). -/
  | openClick
  /-- Click outside the widget root (`close`). -/
  | outsideClick
  /-- A key pressed in the search box (`handleKeys`). -/
  | key (k : Key)
  /-- Click on the rendered row number `i`. -/
  | rowClick (i : Nat)
  /-- Click on the close button of tag number `i`. -/
  | tagClose (i : Nat)
deriving DecidableEq, Repr

/-- The widget's reaction to one event. -/
def step (env : Env) (w : Widget) : Event → Widget
  | Event.input text => onInput env w text
  | Event.openClick => openDropdown env w
  | Event.outsideClick => close env w
  | Event.key k => handleKeys env w k
  | Event.rowClick i =>
    match w.optionEls[i]? with
    | some r => clickRow env w r
    | none => w
  | Event.tagClose i =>
    match w.tags[i]? with
    | some opt => removeTag env w opt
    | none => w

/-- The widget after a sequence of events. -/
def run (env : Env) (w : Widget) (events : List Event) : Widget :=
  events.foldl (step env) w

/-- Every SelectionState value is a Catalog value, and the FilteredView and the options
the row listeners hold are Catalog entries. -/
def CatalogCovers (w : Widget) : Prop :=
  (∀ s ∈ w.selected, s.value ∈ w.options.map Opt.value) ∧
  (∀ o ∈ w.filteredOptions, o ∈ w.options) ∧
  (∀ r ∈ w.optionEls, ∀ o, r.onClick = RowClick.select o → o ∈ w.options)

/-! ## Example states -/

/-- A creatable multi-select with one option, opened. -/
def createStart : Widget :=
  openDropdown asciiEnv (construct asciiEnv [nativeOption "Old".toList "old".toList false] true true)

/-- A multi-select holding two selected options, search box empty. -/
def twoSelected : Widget :=
  openDropdown asciiEnv (construct asciiEnv
    [nativeOption "A".toList "a".toList true, nativeOption "B".toList "b".toList true] true false)

/-- A multi-select with options A and B, opened; B was chosen first (Down, Down, Enter),
then A (Up, Enter). -/
def orderSel : Widget :=
  run asciiEnv
    (construct asciiEnv
      [nativeOption "A".toList "a".toList false, nativeOption "B".toList "b".toList false] true false)
    [Event.openClick, Event.key Key.arrowDown, Event.key Key.arrowDown, Event.key Key.enter,
      Event.key Key.arrowUp, Event.key Key.enter]

/-- A single select with one option "Apple", opened. -/
def appleStart : Widget :=
  openDropdown asciiEnv (construct asciiEnv
    [nativeOption "Apple".toList "apple".toList true] false false)

/-- A single select whose placeholder option (empty value) is the selected one. -/
def placeholderNative : List NativeOption :=
  [nativeOption "Select...".toList [] true, nativeOption "A".toList "a".toList false]

/-- A creatable multi-select with "A B" (value "a_b") selected; the user typed "a  b"
(two blanks), which matches no label, and pressed Down onto the create row. -/
def dupTyped : Widget :=
  run asciiEnv (construct asciiEnv [nativeOption "A B".toList "a_b".toList true] true true)
    [Event.openClick, Event.input "a  b".toList, Event.key Key.arrowDown]

/-- A creatable single select with "A" selected; the user typed "zz" and pressed Down
onto the create row. -/
def singleTyped : Widget :=
  run asciiEnv (construct asciiEnv [nativeOption "A".toList "a".toList true] false true)
    [Event.openClick, Event.input "zz".toList, Event.key Key.arrowDown]

/-- A multi-select (not creatable) whose first option is labelled "+ Create account";
the search box is empty and Down highlighted that first row. -/
def labelHi : Widget :=
  run asciiEnv
    (construct asciiEnv
      [nativeOption "+ Create account".toList "acct".toList false, nativeOption "B".toList "b".toList false]
      true false)
    [Event.openClick, Event.key Key.arrowDown]

/-- A creatable multi-select with one option; the user typed `say "hi"` and pressed Down
onto the create row. -/
def quoteTyped : Widget :=
  run asciiEnv (construct asciiEnv [nativeOption "A".toList "a".toList true] true true)
    [Event.openClick, Event.input "say \"hi\"".toList, Event.key Key.arrowDown]

/-- Three rendered rows, nothing highlighted. -/
def navWidget : Widget :=
  { selectEl := { options := [], multiple := true, displaySize := 4 },
    multiple := true, creatable := false, placeholder := [],
    options := [], selected := [], currentIndex := -1, inputValue := [],
    filteredOptions := [],
    optionEls := [⟨"a".toList, RowClick.nothing⟩, ⟨"b".toList, RowClick.nothing⟩, ⟨"c".toList, RowClick.nothing⟩],
    dropdownOpen := true, displayText := [], tags := [] }


/-! ## Frame lemmas: which fields each method leaves alone -/

@[simp] theorem updateDisplay_selected (w : Widget) : (updateDisplay w).selected = w.selected := by
  unfold updateDisplay; split
  · rfl
  · split <;> rfl

@[simp] theorem updateDisplay_options (w : Widget) : (updateDisplay w).options = w.options := by
  unfold updateDisplay; split
  · rfl
  · split <;> rfl

@[simp] theorem updateDisplay_multiple (w : Widget) : (updateDisplay w).multiple = w.multiple := by
  unfold updateDisplay; split
  · rfl
  · split <;> rfl

@[simp] theorem updateDisplay_selectEl (w : Widget) : (updateDisplay w).selectEl = w.selectEl := by
  unfold updateDisplay; split
  · rfl
  · split <;> rfl

@[simp] theorem syncToSelect_selected (env : Env) (w : Widget) :
    (syncToSelect env w).selected = w.selected := rfl

@[simp] theorem syncToSelect_options (env : Env) (w : Widget) :
    (syncToSelect env w).options = w.options := rfl

@[simp] theorem syncToSelect_multiple (env : Env) (w : Widget) :
    (syncToSelect env w).multiple = w.multiple := rfl

@[simp] theorem renderOptions_selected (env : Env) (w : Widget) :
    (renderOptions env w).selected = w.selected := by
  unfold renderOptions; split
  · rfl
  · split <;> rfl

@[simp] theorem renderOptions_options (env : Env) (w : Widget) :
    (renderOptions env w).options = w.options := by
  unfold renderOptions; split
  · rfl
  · split <;> rfl

@[simp] theorem renderOptions_multiple (env : Env) (w : Widget) :
    (renderOptions env w).multiple = w.multiple := by
  unfold renderOptions; split
  · rfl
  · split <;> rfl

@[simp] theorem filter_selected (env : Env) (w : Widget) (term : Str) :
    (filter env w term).selected = w.selected := by
  simp [filter]

@[simp] theorem filter_options (env : Env) (w : Widget) (term : Str) :
    (filter env w term).options = w.options := by
  simp [filter]

@[simp] theorem filter_multiple (env : Env) (w : Widget) (term : Str) :
    (filter env w term).multiple = w.multiple := by
  simp [filter]

@[simp] theorem close_selected (env : Env) (w : Widget) : (close env w).selected = w.selected := by
  simp [close]

@[simp] theorem close_options (env : Env) (w : Widget) : (close env w).options = w.options := by
  simp [close]

@[simp] theorem close_multiple (env : Env) (w : Widget) : (close env w).multiple = w.multiple := by
  simp [close]

theorem syncFromSelect_selected (w : Widget) :
    (syncFromSelect w).selected = selectedOptions w.selectEl.options := by
  simp [syncFromSelect]

theorem select_selected (env : Env) (w : Widget) (opt : Opt) :
    (select env w opt).selected =
      if w.multiple then
        if w.selected.any (fun s => s.value = opt.value) then w.selected
        else w.selected ++ [opt]
      else [opt] := by
  unfold select
  by_cases hm : w.multiple = true
  · by_cases hs : w.selected.any (fun s => decide (s.value = opt.value)) = true
    · simp [hm, hs]
    · simp [hm, hs]
  · simp [hm]

theorem select_options (env : Env) (w : Widget) (opt : Opt) :
    (select env w opt).options = w.options := by
  unfold select
  by_cases hm : w.multiple = true
  · by_cases hs : w.selected.any (fun s => decide (s.value = opt.value)) = true
    · simp [hm, hs]
    · simp [hm, hs]
  · simp [hm]

theorem select_multiple (env : Env) (w : Widget) (opt : Opt) :
    (select env w opt).multiple = w.multiple := by
  unfold select
  by_cases hm : w.multiple = true
  · by_cases hs : w.selected.any (fun s => decide (s.value = opt.value)) = true
    · simp [hm, hs]
    · simp [hm, hs]
  · simp [hm]

theorem createAndSelect_selected (env : Env) (w : Widget) (label : Str) :
    (createAndSelect env w label).selected
      = w.selected ++ [{ label := label, value := deriveValue env label }] := by
  unfold createAndSelect
  by_cases h : w.options.any (fun o => decide (o.value = deriveValue env label)) = true
  · simp only [h, not_true_eq_false, if_false]
    split <;> simp
  · simp only [h, Bool.false_eq_true, not_false_eq_true, if_true]
    split <;> simp

theorem createAndSelect_options (env : Env) (w : Widget) (label : Str) :
    (createAndSelect env w label).options =
      if w.options.any (fun o => o.value = deriveValue env label) then w.options
      else w.options ++ [{ label := label, value := deriveValue env label }] := by
  unfold createAndSelect
  by_cases h : w.options.any (fun o => decide (o.value = deriveValue env label)) = true
  · simp only [h, not_true_eq_false, if_false]
    split <;> simp
  · simp only [h, Bool.false_eq_true, not_false_eq_true, if_true]
    split <;> simp

theorem removeTag_selected (env : Env) (w : Widget) (opt : Opt) :
    (removeTag env w opt).selected = w.selected.filter (fun s => s.value ≠ opt.value) := by
  simp [removeTag]

theorem backspace_selected (env : Env) (w : Widget) :
    (handleKeys env w Key.backspace).selected =
      if w.multiple = true ∧ w.inputValue = [] ∧ w.selected.length > 0 then w.selected.dropLast
      else w.selected := by
  show (if w.multiple = true ∧ w.inputValue = [] ∧ w.selected.length > 0 then
      syncToSelect env (updateDisplay { w with selected := w.selected.dropLast })
    else w).selected = _
  split <;> simp


/-! ## Keyboard navigation -/

theorem jsRem_shift (x n : Int) (hn : 1 ≤ n) (hx : -2 ≤ x) :
    jsRem (x + n) n = x % n := by
  unfold jsRem
  by_cases h : 0 ≤ x + n
  · rw [Int.tmod_eq_emod h (by omega), Int.add_emod_self]
  · have h1 : n = 1 := by omega
    have h2 : x = -2 := by omega
    subst h1 h2
    decide

theorem moveIndex_currentIndex (w : Widget) (step : Int) (hN : 1 ≤ w.optionEls.length) :
    (moveIndex w step).currentIndex
      = jsRem (w.currentIndex + step + w.optionEls.length) w.optionEls.length := by
  unfold moveIndex
  rw [if_neg (by omega)]

/-- C8: with `N ≥ 1` rendered rows and `HighlightIndex` `i ≥ -1`, Down sets the index to
`(i + 1) mod N` and Up sets it to `(i - 1) mod N` (non-negative remainder), both in
`[0, N - 1]`; from `N - 1` Down moves to `0`, from `0` Up moves to `N - 1`; with no rows
`moveIndex` changes nothing. The bound `i ≤ N - 1` of the claim is not needed. -/
theorem moveIndex_cyclic (w : Widget) (hN : 1 ≤ w.optionEls.length)
    (hlo : -1 ≤ w.currentIndex) :
    (moveIndex w 1).currentIndex = (w.currentIndex + 1) % (w.optionEls.length : Int) ∧
    (moveIndex w (-1)).currentIndex = (w.currentIndex - 1) % (w.optionEls.length : Int) ∧
    (0 ≤ (moveIndex w 1).currentIndex ∧
      (moveIndex w 1).currentIndex ≤ (w.optionEls.length : Int) - 1) ∧
    (0 ≤ (moveIndex w (-1)).currentIndex ∧
      (moveIndex w (-1)).currentIndex ≤ (w.optionEls.length : Int) - 1) ∧
    (w.currentIndex = (w.optionEls.length : Int) - 1 → (moveIndex w 1).currentIndex = 0) ∧
    (w.currentIndex = 0 →
      (moveIndex w (-1)).currentIndex = (w.optionEls.length : Int) - 1) ∧
    (∀ step : Int, moveIndex { w with optionEls := [] } step = { w with optionEls := [] }) := by
  have hn : (1 : Int) ≤ (w.optionEls.length : Int) := by exact_mod_cast hN
  have hpos : (0 : Int) < (w.optionEls.length : Int) := by omega
  have hne : (w.optionEls.length : Int) ≠ 0 := by omega
  have hd : (moveIndex w 1).currentIndex = (w.currentIndex + 1) % (w.optionEls.length : Int) := by
    rw [moveIndex_currentIndex w 1 hN]
    exact jsRem_shift _ _ hn (by omega)
  have hu : (moveIndex w (-1)).currentIndex
      = (w.currentIndex - 1) % (w.optionEls.length : Int) := by
    rw [moveIndex_currentIndex w (-1) hN]
    exact jsRem_shift _ _ hn (by omega)
  refine ⟨hd, hu, ?_, ?_, ?_, ?_, ?_⟩
  · rw [hd]
    have := Int.emod_nonneg (w.currentIndex + 1) hne
    have := Int.emod_lt_of_pos (w.currentIndex + 1) hpos
    omega
  · rw [hu]
    have := Int.emod_nonneg (w.currentIndex - 1) hne
    have := Int.emod_lt_of_pos (w.currentIndex - 1) hpos
    omega
  · intro h
    rw [hd, h]
    simp
  · intro h
    rw [hu, h]
    have h1 : (0 - 1 : Int) = ((w.optionEls.length : Int) - 1) + (-1) * (w.optionEls.length : Int) := by ring
    rw [h1, Int.add_mul_emod_self]
    exact Int.emod_eq_of_lt (by omega) (by omega)
  · intro step
    simp [moveIndex]

/-- C8 witness: three rows, no highlight: Down goes to row 0, Up to row 1. -/
theorem moveIndex_cyclic_witness :
    (moveIndex navWidget 1).currentIndex = 0 ∧ (moveIndex navWidget (-1)).currentIndex = 1 := by
  have h := moveIndex_cyclic navWidget (by decide) (by decide)
  exact ⟨h.1.trans (by decide), h.2.1.trans (by decide)⟩


/-! ## Selection and creation -/

theorem any_value_iff (l : List Opt) (v : Str) :
    l.any (fun s => decide (s.value = v)) = true ↔ v ∈ l.map Opt.value := by
  simp only [List.any_eq_true, decide_eq_true_eq, List.mem_map]

/-- C6: in multiple mode, selecting the same option twice leaves the same SelectionState
as selecting it once, and selecting an option whose value is already in SelectionState
leaves SelectionState unchanged. -/
theorem select_idempotent (env : Env) (w : Widget) (opt : Opt) (hm : w.multiple = true) :
    (select env (select env w opt) opt).selected = (select env w opt).selected ∧
    (opt.value ∈ w.selected.map Opt.value → (select env w opt).selected = w.selected) := by
  have hm1 : (select env w opt).multiple = true := by rw [select_multiple, hm]
  constructor
  · rw [select_selected env (select env w opt) opt, hm1, if_pos rfl, if_pos]
    rw [any_value_iff, select_selected, hm, if_pos rfl]
    by_cases h : w.selected.any (fun s => decide (s.value = opt.value)) = true
    · rw [if_pos h]
      exact (any_value_iff _ _).1 h
    · rw [if_neg h]
      simp
  · intro h
    rw [select_selected, hm, if_pos rfl, if_pos ((any_value_iff _ _).2 h)]

/-- C6 witness: option B selected twice in a multi-select that already holds A and B. -/
theorem select_idempotent_witness :
    (select asciiEnv (select asciiEnv twoSelected ⟨"B".toList, "b".toList⟩)
        ⟨"B".toList, "b".toList⟩).selected
      = [⟨"A".toList, "a".toList⟩, ⟨"B".toList, "b".toList⟩] := by
  have h := select_idempotent asciiEnv twoSelected ⟨"B".toList, "b".toList⟩ (by decide)
  rw [h.1, h.2 (by decide)]
  decide

/-! ## Backspace -/

/-- C9: Backspace pops the stack. In multiple mode with empty search text and
SelectionState `init ++ [last]` the new SelectionState is `init` (with two selected
options only the second is removed); in single mode, with non-empty search text, or with
empty SelectionState, Backspace leaves SelectionState unchanged. -/
theorem backspace_stack_pop (env : Env) (w : Widget) :
    (∀ init last, w.multiple = true → w.inputValue = [] → w.selected = init ++ [last] →
      (handleKeys env w Key.backspace).selected = init) ∧
    (∀ first second, w.multiple = true → w.inputValue = [] → w.selected = [first, second] →
      (handleKeys env w Key.backspace).selected = [first]) ∧
    (w.multiple = false ∨ w.inputValue ≠ [] ∨ w.selected = [] →
      (handleKeys env w Key.backspace).selected = w.selected) := by
  refine ⟨?_, ?_, ?_⟩
  · intro init last hm hi hs
    rw [backspace_selected, if_pos ⟨hm, hi, by simp [hs]⟩, hs, List.dropLast_concat]
  · intro a b hm hi hs
    rw [backspace_selected, if_pos ⟨hm, hi, by simp [hs]⟩, hs]
    rfl
  · intro h
    rw [backspace_selected, if_neg]
    rintro ⟨hm, hi, hs⟩
    rcases h with h | h | h
    · rw [hm] at h; cases h
    · exact h hi
    · rw [h] at hs; simp at hs

/-- C9 witness: with A and B selected, Backspace leaves A. -/
theorem backspace_stack_pop_witness :
    (handleKeys asciiEnv twoSelected Key.backspace).selected = [⟨"A".toList, "a".toList⟩] :=
  (backspace_stack_pop asciiEnv twoSelected).2.1 ⟨"A".toList, "a".toList⟩
    ⟨"B".toList, "b".toList⟩ (by decide) (by decide) (by decide)

/-! ## Whitespace normalisation of created values -/

theorem replaceRunsFrom_cons_of_not (inRun : Bool) (c : Char) (s : Str)
    (hc : isWhiteSpace c = false) :
    replaceRunsFrom inRun (c :: s) = c :: replaceRunsFrom false s := by
  simp [replaceRunsFrom, hc]

theorem replaceRunsFrom_true_cons (c : Char) (s : Str) (hc : isWhiteSpace c = true) :
    replaceRunsFrom true (c :: s) = replaceRunsFrom true s := by
  simp [replaceRunsFrom, hc]

theorem replaceRunsFrom_false_cons (c : Char) (s : Str) (hc : isWhiteSpace c = true) :
    replaceRunsFrom false (c :: s) = '_' :: replaceRunsFrom true s := by
  simp [replaceRunsFrom, hc]

theorem replaceRunsFrom_of_head (b : Str)
    (hb : ∀ c, b.head? = some c → isWhiteSpace c = false) :
    replaceRunsFrom true b = replaceRunsFrom false b := by
  cases b with
  | nil => rfl
  | cons c b =>
    have hc := hb c rfl
    rw [replaceRunsFrom_cons_of_not _ _ _ hc, replaceRunsFrom_cons_of_not _ _ _ hc]

theorem replaceRunsFrom_true_run (ws b : Str) (hws : ∀ c ∈ ws, isWhiteSpace c = true) :
    replaceRunsFrom true (ws ++ b) = replaceRunsFrom true b := by
  induction ws with
  | nil => rfl
  | cons c ws ih =>
    rw [List.cons_append, replaceRunsFrom_true_cons _ _ (hws c (List.mem_cons_self _ _))]
    exact ih (fun d hd => hws d (List.mem_cons_of_mem _ hd))

theorem replaceRunsFrom_false_run (ws b : Str) (hne : ws ≠ [])
    (hws : ∀ c ∈ ws, isWhiteSpace c = true) :
    replaceRunsFrom false (ws ++ b) = '_' :: replaceRunsFrom true b := by
  cases ws with
  | nil => exact absurd rfl hne
  | cons c ws =>
    rw [List.cons_append, replaceRunsFrom_false_cons _ _ (hws c (List.mem_cons_self _ _)),
      replaceRunsFrom_true_run ws b (fun d hd => hws d (List.mem_cons_of_mem _ hd))]

theorem replaceRunsFrom_append (inRun : Bool) (a r : Str) (hne : a ≠ [])
    (ha : ∀ c, a.getLast? = some c → isWhiteSpace c = false) :
    replaceRunsFrom inRun (a ++ r) = replaceRunsFrom inRun a ++ replaceRunsFrom false r := by
  induction a generalizing inRun with
  | nil => exact absurd rfl hne
  | cons c a ih =>
    cases a with
    | nil =>
      have hc := ha c rfl
      rw [List.singleton_append, replaceRunsFrom_cons_of_not _ _ _ hc,
        replaceRunsFrom_cons_of_not _ _ _ hc]
      rfl
    | cons d a =>
      have ha1 : ∀ e, (d :: a).getLast? = some e → isWhiteSpace e = false := by
        intro e he
        apply ha e
        rw [List.getLast?_cons_cons]
        exact he
      have step : ∀ f, replaceRunsFrom f (d :: a ++ r)
          = replaceRunsFrom f (d :: a) ++ replaceRunsFrom false r :=
        fun f => ih f (by simp) ha1
      rw [List.cons_append]
      cases hc : isWhiteSpace c with
      | false =>
        rw [replaceRunsFrom_cons_of_not _ _ _ hc, replaceRunsFrom_cons_of_not _ _ _ hc, step]
        rfl
      | true =>
        cases inRun with
        | true => rw [replaceRunsFrom_true_cons _ _ hc, replaceRunsFrom_true_cons _ _ hc, step]
        | false =>
          rw [replaceRunsFrom_false_cons _ _ hc, replaceRunsFrom_false_cons _ _ hc, step]
          rfl

theorem replaceWhitespaceRuns_of_no_whitespace (s : Str)
    (hs : ∀ c ∈ s, isWhiteSpace c = false) : replaceWhitespaceRuns s = s := by
  unfold replaceWhitespaceRuns
  induction s with
  | nil => rfl
  | cons c s ih =>
    rw [replaceRunsFrom_cons_of_not _ _ _ (hs c (List.mem_cons_self _ _)),
      ih (fun d hd => hs d (List.mem_cons_of_mem _ hd))]

theorem replaceWhitespaceRuns_run (a ws b : Str)
    (ha : ∀ c, a.getLast? = some c → isWhiteSpace c = false)
    (hne : ws ≠ []) (hws : ∀ c ∈ ws, isWhiteSpace c = true)
    (hb : ∀ c, b.head? = some c → isWhiteSpace c = false) :
    replaceWhitespaceRuns (a ++ ws ++ b)
      = replaceWhitespaceRuns a ++ '_' :: replaceWhitespaceRuns b := by
  unfold replaceWhitespaceRuns
  have hrun : replaceRunsFrom false (ws ++ b) = '_' :: replaceRunsFrom false b := by
    rw [replaceRunsFrom_false_run ws b hne hws, replaceRunsFrom_of_head b hb]
  by_cases hA : a = []
  · subst hA
    simpa using hrun
  · rw [List.append_assoc, replaceRunsFrom_append false a (ws ++ b) hA ha, hrun]

/-! ## Creation -/

theorem createAndSelect_options_mem (env : Env) (w : Widget) (label : Str) :
    deriveValue env label ∈ (createAndSelect env w label).options.map Opt.value := by
  rw [createAndSelect_options]
  by_cases h : w.options.any (fun o => decide (o.value = deriveValue env label)) = true
  · rw [if_pos h]
    exact (any_value_iff _ _).1 h
  · rw [if_neg h]
    simp

theorem createAndSelect_options_nodup (env : Env) (w : Widget) (label : Str)
    (hu : (w.options.map Opt.value).Nodup) :
    ((createAndSelect env w label).options.map Opt.value).Nodup := by
  rw [createAndSelect_options]
  by_cases h : w.options.any (fun o => decide (o.value = deriveValue env label)) = true
  · rw [if_pos h]
    exact hu
  · rw [if_neg h, List.map_append, List.nodup_append]
    refine ⟨hu, by simp, ?_⟩
    intro a ha hb
    simp only [List.map_cons, List.map_nil, List.mem_singleton] at hb
    subst hb
    exact h ((any_value_iff _ _).2 ha)

theorem createAndSelect_options_of_mem (env : Env) (w : Widget) (label : Str)
    (h : deriveValue env label ∈ w.options.map Opt.value) :
    (createAndSelect env w label).options = w.options := by
  rw [createAndSelect_options, if_pos ((any_value_iff _ _).2 h)]

theorem length_filter_value_eq_one (l : List Opt) (v : Str)
    (hu : (l.map Opt.value).Nodup) (hv : v ∈ l.map Opt.value) :
    (l.filter (fun o => o.value = v)).length = 1 := by
  induction l with
  | nil => simp at hv
  | cons o l ih =>
    rw [List.map_cons, List.nodup_cons] at hu
    by_cases ho : o.value = v
    · have hnone : l.filter (fun o => decide (o.value = v)) = [] := by
        rw [List.filter_eq_nil_iff]
        intro a ha hav
        apply hu.1
        rw [ho, ← of_decide_eq_true hav]
        exact List.mem_map_of_mem _ ha
      rw [List.filter_cons_of_pos (by simpa using ho), hnone]
      rfl
    · rw [List.filter_cons_of_neg (by simpa using ho)]
      apply ih hu.2
      rw [List.map_cons, List.mem_cons] at hv
      rcases hv with hv | hv
      · exact absurd hv.symm ho
      · exact hv

/-- C7: `createAndSelect` derives the value by lowercasing the label and replacing
whitespace runs by `_`: a string without whitespace is kept, a maximal run between a part
that does not end and a part that does not start with whitespace becomes one `_`, and
"New Item" gives "new_item" when lowercasing gives "new item". With unique Catalog values,
after two calls with the same label the Catalog has exactly one entry with the derived
value, its values are still unique, the second call left the Catalog as the first made
it, and SelectionState received the option once per call. -/
theorem createAndSelect_twice (env : Env) (w : Widget) (label : Str)
    (hu : (w.options.map Opt.value).Nodup) :
    deriveValue env label = replaceWhitespaceRuns (env.toLowerCase label) ∧
    (∀ s : Str, (∀ c ∈ s, isWhiteSpace c = false) → replaceWhitespaceRuns s = s) ∧
    (∀ a ws b : Str, (∀ c, a.getLast? = some c → isWhiteSpace c = false) → ws ≠ [] →
      (∀ c ∈ ws, isWhiteSpace c = true) → (∀ c, b.head? = some c → isWhiteSpace c = false) →
      replaceWhitespaceRuns (a ++ ws ++ b)
        = replaceWhitespaceRuns a ++ '_' :: replaceWhitespaceRuns b) ∧
    (env.toLowerCase "New Item".toList = "new item".toList →
      deriveValue env "New Item".toList = "new_item".toList) ∧
    ((createAndSelect env (createAndSelect env w label) label).options.filter
      (fun o => o.value = deriveValue env label)).length = 1 ∧
    ((createAndSelect env (createAndSelect env w label) label).options.map Opt.value).Nodup ∧
    (createAndSelect env (createAndSelect env w label) label).options
      = (createAndSelect env w label).options ∧
    (createAndSelect env w label).selected
      = w.selected ++ [{ label := label, value := deriveValue env label }] ∧
    (createAndSelect env (createAndSelect env w label) label).selected
      = w.selected ++ [{ label := label, value := deriveValue env label },
          { label := label, value := deriveValue env label }] := by
  have h1 := createAndSelect_options_mem env w label
  have h2 := createAndSelect_options_nodup env w label hu
  have h3 := createAndSelect_options_of_mem env (createAndSelect env w label) label h1
  refine ⟨rfl, replaceWhitespaceRuns_of_no_whitespace, replaceWhitespaceRuns_run, ?_, ?_, ?_, h3,
    createAndSelect_selected env w label, ?_⟩
  · intro h
    unfold deriveValue
    rw [h]
    decide
  · rw [h3]
    exact length_filter_value_eq_one _ _ h2 h1
  · rw [h3]
    exact h2
  · rw [createAndSelect_selected, createAndSelect_selected, List.append_assoc]
    rfl

/-- C7 witness: "New Item" created twice in a Catalog holding "Old". -/
theorem createAndSelect_twice_witness :
    (createAndSelect asciiEnv (createAndSelect asciiEnv createStart "New Item".toList)
        "New Item".toList).options
      = [⟨"Old".toList, "old".toList⟩, ⟨"New Item".toList, "new_item".toList⟩] ∧
    (createAndSelect asciiEnv (createAndSelect asciiEnv createStart "New Item".toList)
        "New Item".toList).selected
      = [⟨"New Item".toList, "new_item".toList⟩, ⟨"New Item".toList, "new_item".toList⟩] := by
  have h := createAndSelect_twice asciiEnv createStart "New Item".toList (by decide)
  have hv := h.2.2.2.1 (by decide)
  refine ⟨?_, ?_⟩
  · rw [h.2.2.2.2.2.2.1]
    decide
  · rw [h.2.2.2.2.2.2.2.2, hv]
    decide

/-! ## Sync bridge -/

/-! ### The native control under `multiple` -/

theorem selectednessSetting_multiple (el : SelectElement) :
    (selectednessSetting el).multiple = el.multiple := by
  unfold selectednessSetting
  split
  · rfl
  · split
    · rfl
    · split <;> rfl

theorem selectednessSetting_of_multiple (el : SelectElement) (h : el.multiple = true) :
    selectednessSetting el = el := by
  unfold selectednessSetting
  rw [if_pos h]

theorem setSelected_multiple (el : SelectElement) (i : Nat) (b : Bool) :
    (setSelected el i b).multiple = el.multiple := by
  unfold setSelected
  split
  · split
    · rw [selectednessSetting_multiple]
    · rw [selectednessSetting_multiple]
  · rfl

theorem modifyAt_of_length_le {α : Type} (f : α → α) (l : List α) (i : Nat)
    (h : l.length ≤ i) : modifyAt f i l = l := by
  induction l generalizing i with
  | nil => cases i <;> rfl
  | cons a l ih =>
    cases i with
    | zero => simp at h
    | succ j =>
      show a :: modifyAt f j l = a :: l
      rw [ih j (by simpa using h)]

theorem modifyAt_append_length {α : Type} (f : α → α) (pre : List α) (a : α) (post : List α) :
    modifyAt f pre.length (pre ++ a :: post) = pre ++ f a :: post := by
  induction pre with
  | nil => rfl
  | cons b pre ih =>
    show b :: modifyAt f pre.length (pre ++ a :: post) = b :: (pre ++ f a :: post)
    rw [ih]

theorem setSelected_of_multiple (os : List NativeOption) (d i : Nat) (b : Bool) :
    setSelected ⟨os, true, d⟩ i b
      = ⟨modifyAt (fun o => { o with selected := b }) i os, true, d⟩ := by
  unfold setSelected
  by_cases hi : i < os.length
  · rw [if_pos hi, if_neg (by simp)]
    exact selectednessSetting_of_multiple _ rfl
  · rw [if_neg hi, modifyAt_of_length_le _ _ _ (by omega)]

theorem clearFrom_of_multiple (n d : Nat) (pre post : List NativeOption)
    (hn : post.length = n) :
    clearFrom ⟨pre ++ post, true, d⟩ pre.length n
      = ⟨pre ++ post.map (fun o => { o with selected := false }), true, d⟩ := by
  induction n generalizing pre post with
  | zero =>
    have hp : post = [] := List.length_eq_zero.1 hn
    subst hp
    rfl
  | succ n ih =>
    cases post with
    | nil => simp at hn
    | cons o post =>
      show clearFrom (setSelected ⟨pre ++ o :: post, true, d⟩ pre.length false)
        (pre.length + 1) n = _
      rw [setSelected_of_multiple, modifyAt_append_length]
      have h1 := ih (pre ++ [{ o with selected := false }]) post (by simpa using hn)
      rw [List.length_append, List.length_singleton, List.append_assoc, List.append_assoc] at h1
      exact h1

theorem clearSelected_of_multiple (os : List NativeOption) (d : Nat) :
    clearSelected ⟨os, true, d⟩
      = ⟨os.map (fun o => { o with selected := false }), true, d⟩ :=
  clearFrom_of_multiple os.length d [] os rfl


theorem selectedValues_nil : selectedValues [] = [] := rfl

theorem selectedValues_cons (o : NativeOption) (os : List NativeOption) :
    selectedValues (o :: os)
      = if o.selected = true then o.value :: selectedValues os else selectedValues os := by
  unfold selectedValues selectedOptions
  by_cases h : o.selected = true
  · rw [if_pos h, List.filter_cons_of_pos h]
    rfl
  · rw [if_neg h, List.filter_cons_of_neg h]

theorem selectedValues_append (a b : List NativeOption) :
    selectedValues (a ++ b) = selectedValues a ++ selectedValues b := by
  simp [selectedValues, selectedOptions]

theorem selectedValues_map_clear (os : List NativeOption) :
    selectedValues (os.map (fun o => { o with selected := false })) = [] := by
  induction os with
  | nil => rfl
  | cons o os ih =>
    rw [List.map_cons, selectedValues_cons, if_neg (by simp), ih]

theorem value_of_valueAttr (o : NativeOption) (v : Str) (h : o.valueAttr = some v) :
    o.value = v := by
  unfold NativeOption.value
  rw [h]

theorem value_set_selected (o : NativeOption) (b : Bool) :
    ({ o with selected := b } : NativeOption).value = o.value := rfl

theorem firstIndex_modifyAt_selectedValues (p : NativeOption → Bool) (v : Str)
    (hp : ∀ o, p o = true → o.value = v) (os : List NativeOption) (i : Nat)
    (h : firstIndex p os = some i) (u : Str) :
    u ∈ selectedValues (modifyAt (fun o => { o with selected := true }) i os)
      ↔ u ∈ selectedValues os ∨ u = v := by
  induction os generalizing i with
  | nil => cases h
  | cons o os ih =>
    unfold firstIndex at h
    by_cases ho : p o = true
    · rw [if_pos ho, Option.some.injEq] at h
      subst h
      show u ∈ selectedValues ({ o with selected := true } :: os) ↔ _
      rw [selectedValues_cons, if_pos rfl, value_set_selected, hp o ho, selectedValues_cons,
        List.mem_cons]
      by_cases hs : o.selected = true
      · rw [if_pos hs, List.mem_cons, hp o ho]; tauto
      · rw [if_neg hs]; tauto
    · rw [if_neg ho, Option.map_eq_some'] at h
      obtain ⟨j, hj, rfl⟩ := h
      show u ∈ selectedValues (o :: modifyAt _ j os) ↔ _
      rw [selectedValues_cons, selectedValues_cons]
      by_cases hs : o.selected = true
      · rw [if_pos hs, if_pos hs, List.mem_cons, List.mem_cons, ih j hj]; tauto
      · rw [if_neg hs, if_neg hs, ih j hj]

theorem syncOne_of_multiple (env : Env) (os : List NativeOption) (d : Nat) (s : Opt)
    (hs : selectorSafe s.value = true) :
    ∃ os1, syncOne env ⟨os, true, d⟩ s = some ⟨os1, true, d⟩ ∧
      ∀ u, u ∈ selectedValues os1 ↔ u ∈ selectedValues os ∨ u = s.value := by
  unfold syncOne queryOptionByValue
  rw [if_pos hs]
  cases hi : firstIndex (fun o => decide (o.valueAttr = some s.value)) os with
  | some i =>
    refine ⟨modifyAt (fun o => { o with selected := true }) i os, ?_, ?_⟩
    · show some (setSelected ⟨os, true, d⟩ i true) = _
      rw [setSelected_of_multiple]
    · exact firstIndex_modifyAt_selectedValues _ s.value
        (fun o ho => value_of_valueAttr o _ (of_decide_eq_true ho)) os i hi
  | none =>
    refine ⟨os ++ [⟨s.label, some s.value, true, false⟩], ?_, ?_⟩
    · show some (setSelected (appendOption ⟨os, true, d⟩ _) os.length true) = _
      unfold appendOption
      rw [selectednessSetting_of_multiple _ rfl, setSelected_of_multiple,
        modifyAt_append_length]
    · intro u
      rw [selectedValues_append, List.mem_append, selectedValues_cons, if_pos rfl,
        selectedValues_nil, List.mem_singleton]
      rfl

theorem syncLoop_of_multiple (env : Env) (sel : List Opt) (os : List NativeOption) (d : Nat)
    (hs : ∀ s ∈ sel, selectorSafe s.value = true) :
    ∃ os1, syncLoop env ⟨os, true, d⟩ sel = (⟨os1, true, d⟩, false) ∧
      ∀ u, u ∈ selectedValues os1 ↔ u ∈ selectedValues os ∨ u ∈ sel.map Opt.value := by
  induction sel generalizing os with
  | nil => exact ⟨os, rfl, fun u => by simp⟩
  | cons s sel ih =>
    obtain ⟨os1, h1, hv1⟩ := syncOne_of_multiple env os d s (hs s (List.mem_cons_self _ _))
    obtain ⟨os2, h2, hv2⟩ := ih os1 (fun t ht => hs t (List.mem_cons_of_mem _ ht))
    refine ⟨os2, ?_, ?_⟩
    · unfold syncLoop
      rw [h1]
      exact h2
    · intro u
      rw [hv2, hv1, List.map_cons, List.mem_cons]
      tauto

theorem syncToSelect_of_multiple (env : Env) (w : Widget) (hm : w.selectEl.multiple = true)
    (hs : ∀ s ∈ w.selected, selectorSafe s.value = true) :
    syncToSelectThrows env w = false ∧
    ∀ u, u ∈ selectedValues (syncToSelect env w).selectEl.options ↔ u ∈ w.selected.map Opt.value := by
  have hel : w.selectEl = ⟨w.selectEl.options, true, w.selectEl.displaySize⟩ := by
    rw [← hm]
  generalize w.selectEl.options = os at hel
  generalize w.selectEl.displaySize = d at hel
  obtain ⟨os1, h1, hv1⟩ := syncLoop_of_multiple env w.selected
    (os.map (fun o => { o with selected := false })) d hs
  unfold syncToSelectThrows syncToSelect
  rw [hel, clearSelected_of_multiple, h1]
  refine ⟨rfl, ?_⟩
  intro u
  rw [hv1 u, selectedValues_map_clear]
  simp


/-! ### The native control without `multiple` -/


theorem selectFirstEnabled_unselect (os : List NativeOption) :
    (selectFirstEnabled os).map unselect = os.map unselect := by
  induction os with
  | nil => rfl
  | cons o os ih =>
    unfold selectFirstEnabled
    split
    · rw [List.map_cons, List.map_cons, ih]
    · rfl

theorem keepLastSelected_unselect (os : List NativeOption) :
    (keepLastSelected os).map unselect = os.map unselect := by
  induction os with
  | nil => rfl
  | cons o os ih =>
    unfold keepLastSelected
    split
    · rw [List.map_cons, List.map_cons, ih]
      rfl
    · rw [List.map_cons, List.map_cons, ih]

theorem selectednessSetting_unselect (el : SelectElement) :
    (selectednessSetting el).options.map unselect = el.options.map unselect := by
  unfold selectednessSetting
  split
  · rfl
  · split
    · exact selectFirstEnabled_unselect _
    · split
      · exact keepLastSelected_unselect _
      · rfl

theorem selectOnly_filter (os : List NativeOption) (i : Nat) (o : NativeOption)
    (h : os[i]? = some o) :
    (selectOnly i os).filter (fun x => x.selected) = [{ o with selected := true }] := by
  induction os generalizing i with
  | nil => simp at h
  | cons a os ih =>
    cases i with
    | zero =>
      simp only [List.getElem?_cons_zero, Option.some.injEq] at h
      subst h
      show List.filter _ ({ a with selected := true } :: os.map _) = _
      rw [List.filter_cons_of_pos rfl]
      congr 1
      rw [List.filter_eq_nil_iff]
      intro x hx
      rw [List.mem_map] at hx
      obtain ⟨y, _, rfl⟩ := hx
      simp
    | succ j =>
      rw [List.getElem?_cons_succ] at h
      show List.filter _ ({ a with selected := false } :: selectOnly j os) = _
      rw [List.filter_cons_of_neg (by simp)]
      exact ih j h

theorem selectednessSetting_of_one (el : SelectElement) (x : NativeOption)
    (h : el.options.filter (fun o => o.selected) = [x]) : selectednessSetting el = el := by
  have hany : el.options.any (fun o => o.selected) = true := by
    rw [List.any_eq_true]
    have hx : x ∈ el.options.filter (fun o => o.selected) := by rw [h]; exact List.mem_singleton.2 rfl
    rw [List.mem_filter] at hx
    exact ⟨x, hx.1, hx.2⟩
  have hcount : countSelected el.options = 1 := by
    unfold countSelected
    rw [h]
    rfl
  unfold selectednessSetting
  split
  · rfl
  · rw [if_neg (by rw [hany]; simp), if_neg (by rw [hcount]; decide)]

theorem setSelected_of_single (el : SelectElement) (i : Nat) (o : NativeOption)
    (hm : el.multiple = false) (h : el.options[i]? = some o) :
    setSelected el i true = { el with options := selectOnly i el.options } := by
  have hi : i < el.options.length := by
    rcases List.getElem?_eq_some.1 h with ⟨hi, _⟩
    exact hi
  unfold setSelected
  rw [if_pos hi, if_pos ⟨rfl, hm⟩]
  exact selectednessSetting_of_one _ _ (selectOnly_filter el.options i o h)

theorem firstIndex_getElem {α : Type} (p : α → Bool) (l : List α) (i : Nat)
    (h : firstIndex p l = some i) : ∃ a, l[i]? = some a ∧ p a = true := by
  induction l generalizing i with
  | nil => cases h
  | cons a l ih =>
    unfold firstIndex at h
    by_cases ha : p a = true
    · rw [if_pos ha, Option.some.injEq] at h
      subst h
      exact ⟨a, by simp, ha⟩
    · rw [if_neg ha, Option.map_eq_some'] at h
      obtain ⟨j, hj, rfl⟩ := h
      obtain ⟨b, hb, hpb⟩ := ih j hj
      exact ⟨b, by rw [List.getElem?_cons_succ]; exact hb, hpb⟩

theorem appendOption_multiple (el : SelectElement) (o : NativeOption) :
    (appendOption el o).multiple = el.multiple := by
  unfold appendOption
  rw [selectednessSetting_multiple]

theorem appendOption_getElem (el : SelectElement) (o : NativeOption) :
    ∃ o1, (appendOption el o).options[el.options.length]? = some o1 ∧
      unselect o1 = unselect o := by
  have h := selectednessSetting_unselect { el with options := el.options ++ [o] }
  have h1 : ((appendOption el o).options.map unselect)[el.options.length]?
      = some (unselect o) := by
    show ((selectednessSetting { el with options := el.options ++ [o] }).options.map
      unselect)[el.options.length]? = _
    rw [h]
    show ((el.options ++ [o]).map unselect)[el.options.length]? = _
    rw [List.map_append, List.getElem?_append_right (by simp)]
    simp
  rw [List.getElem?_map, Option.map_eq_some'] at h1
  exact h1

theorem syncOne_of_single (env : Env) (el : SelectElement) (s : Opt)
    (hm : el.multiple = false) (hs : selectorSafe s.value = true) :
    ∃ el1 o, syncOne env el s = some el1 ∧ el1.multiple = false ∧
      el1.options.filter (fun x => x.selected) = [o] ∧ o.value = s.value := by
  unfold syncOne queryOptionByValue
  rw [if_pos hs]
  cases hi : firstIndex (fun o => decide (o.valueAttr = some s.value)) el.options with
  | some i =>
    obtain ⟨o, ho, hp⟩ := firstIndex_getElem _ _ _ hi
    refine ⟨_, { o with selected := true }, rfl, ?_, ?_, ?_⟩
    · rw [setSelected_multiple, hm]
    · rw [setSelected_of_single el i o hm ho]
      exact selectOnly_filter el.options i o ho
    · exact value_of_valueAttr _ _ (of_decide_eq_true hp)
  | none =>
    obtain ⟨o1, ho1, hu⟩ := appendOption_getElem el
      { textContent := s.label, valueAttr := some s.value, selected := false, disabled := false }
    have hm1 := (appendOption_multiple el
      { textContent := s.label, valueAttr := some s.value, selected := false,
        disabled := false }).trans hm
    refine ⟨_, { o1 with selected := true }, rfl, ?_, ?_, ?_⟩
    · rw [setSelected_multiple, hm1]
    · rw [setSelected_of_single _ _ o1 hm1 ho1]
      exact selectOnly_filter _ _ o1 ho1
    · have hv : o1.valueAttr = some s.value := congrArg NativeOption.valueAttr hu
      exact value_of_valueAttr _ _ hv

theorem syncLoop_of_single (env : Env) (sel : List Opt) (el : SelectElement)
    (hm : el.multiple = false) (hne : sel ≠ [])
    (hs : ∀ s ∈ sel, selectorSafe s.value = true) :
    ∃ el1 o, syncLoop env el sel = (el1, false) ∧
      el1.options.filter (fun x => x.selected) = [o] ∧ o.value = (sel.getLast hne).value := by
  induction sel generalizing el with
  | nil => exact absurd rfl hne
  | cons s sel ih =>
    obtain ⟨el1, o, h1, hm1, hf, hv⟩ := syncOne_of_single env el s hm (hs s (List.mem_cons_self _ _))
    cases sel with
    | nil =>
      refine ⟨el1, o, ?_, hf, hv⟩
      unfold syncLoop
      rw [h1]
      rfl
    | cons t sel =>
      obtain ⟨el2, o2, h2, hf2, hv2⟩ := ih el1 hm1 (by simp)
        (fun x hx => hs x (List.mem_cons_of_mem _ hx))
      refine ⟨el2, o2, ?_, hf2, ?_⟩
      · unfold syncLoop
        rw [h1]
        exact h2
      · rw [hv2]
        rfl

theorem clearFrom_multiple (n : Nat) (el : SelectElement) (i : Nat) :
    (clearFrom el i n).multiple = el.multiple := by
  induction n generalizing el i with
  | zero => rfl
  | succ n ih =>
    show (clearFrom (setSelected el i false) (i + 1) n).multiple = _
    rw [ih, setSelected_multiple]

theorem syncToSelect_of_single (env : Env) (w : Widget) (hm : w.selectEl.multiple = false)
    (hne : w.selected ≠ []) (hs : ∀ s ∈ w.selected, selectorSafe s.value = true) :
    syncToSelectThrows env w = false ∧
    selectedValues (syncToSelect env w).selectEl.options = [(w.selected.getLast hne).value] := by
  have hc : (clearSelected w.selectEl).multiple = false := by
    unfold clearSelected
    rw [clearFrom_multiple, hm]
  obtain ⟨el1, o, h1, hf, hv⟩ := syncLoop_of_single env w.selected _ hc hne hs
  unfold syncToSelectThrows syncToSelect
  rw [h1]
  refine ⟨rfl, ?_⟩
  show List.map Opt.value (List.map toOpt (List.filter _ el1.options)) = _
  rw [hf, ← hv]
  rfl

/-! ### Exact round trip for a selection listed in document order -/

theorem flagValues_map_value (vs : List Str) (os : List NativeOption) :
    (flagValues vs os).map NativeOption.value = os.map NativeOption.value := by
  unfold flagValues
  rw [List.map_map]
  apply List.map_congr_left
  intro o _
  show (if o.value ∈ vs then ({ o with selected := true } : NativeOption) else o).value = o.value
  split <;> rfl

theorem flagValues_valueAttr (vs : List Str) (os : List NativeOption)
    (ha : ∀ o ∈ os, o.valueAttr = some o.value) :
    ∀ o ∈ flagValues vs os, o.valueAttr = some o.value := by
  intro o ho
  unfold flagValues at ho
  rw [List.mem_map] at ho
  obtain ⟨a, hmem, rfl⟩ := ho
  split
  · exact ha a hmem
  · exact ha a hmem

theorem firstIndex_modifyAt_of_nodup (v : Str) (os : List NativeOption)
    (hu : (os.map NativeOption.value).Nodup) (ha : ∀ o ∈ os, o.valueAttr = some o.value)
    (hv : v ∈ os.map NativeOption.value) :
    ∃ i, firstIndex (fun o => decide (o.valueAttr = some v)) os = some i ∧
      modifyAt (fun o => { o with selected := true }) i os
        = os.map (fun o => if o.value = v then { o with selected := true } else o) := by
  induction os with
  | nil => simp at hv
  | cons o os ih =>
    rw [List.map_cons, List.nodup_cons] at hu
    have hoa := ha o (List.mem_cons_self _ _)
    by_cases ho : o.value = v
    · refine ⟨0, ?_, ?_⟩
      · unfold firstIndex
        rw [if_pos (by rw [hoa, ho]; simp)]
      · show { o with selected := true } :: os = _
        rw [List.map_cons, if_pos ho]
        congr 1
        conv_lhs => rw [← List.map_id os]
        apply List.map_congr_left
        intro a hmem
        have hne : a.value ≠ v := by
          intro e
          apply hu.1
          rw [ho, ← e]
          exact List.mem_map_of_mem _ hmem
        rw [if_neg hne]
        rfl
    · rw [List.map_cons, List.mem_cons] at hv
      have hv1 : v ∈ os.map NativeOption.value := by
        rcases hv with hv | hv
        · exact absurd hv.symm ho
        · exact hv
      obtain ⟨j, hj, hmod⟩ := ih hu.2 (fun a hmem => ha a (List.mem_cons_of_mem _ hmem)) hv1
      refine ⟨j + 1, ?_, ?_⟩
      · unfold firstIndex
        rw [if_neg (by rw [hoa]; simpa using ho), hj]
        rfl
      · show o :: modifyAt _ j os = _
        rw [hmod, List.map_cons, if_neg ho]

theorem syncOne_flagValues (env : Env) (vs : List Str) (os : List NativeOption) (d : Nat)
    (s : Opt) (hu : (os.map NativeOption.value).Nodup)
    (ha : ∀ o ∈ os, o.valueAttr = some o.value)
    (hs : s.value ∈ os.map NativeOption.value) (hsafe : selectorSafe s.value = true) :
    syncOne env ⟨flagValues vs os, true, d⟩ s = some ⟨flagValues (s.value :: vs) os, true, d⟩ := by
  obtain ⟨i, hi, hmod⟩ := firstIndex_modifyAt_of_nodup s.value (flagValues vs os)
    (by rw [flagValues_map_value]; exact hu) (flagValues_valueAttr vs os ha)
    (by rw [flagValues_map_value]; exact hs)
  unfold syncOne queryOptionByValue
  rw [if_pos hsafe]
  show (match (match firstIndex (fun o => decide (o.valueAttr = some s.value))
      (flagValues vs os) with
    | some i => QueryResult.found i
    | none => QueryResult.null) with
    | QueryResult.syntaxError => none
    | QueryResult.found i => some (setSelected ⟨flagValues vs os, true, d⟩ i true)
    | QueryResult.null => _) = _
  rw [hi]
  show some (setSelected ⟨flagValues vs os, true, d⟩ i true) = _
  rw [setSelected_of_multiple, hmod]
  congr 2
  unfold flagValues
  rw [List.map_map]
  apply List.map_congr_left
  intro o _
  simp only [Function.comp, List.mem_cons]
  by_cases h1 : o.value ∈ vs
  · rw [if_pos h1, if_pos (Or.inr h1)]
    show (if o.value = s.value then _ else _) = _
    by_cases h2 : o.value = s.value
    · rw [if_pos h2]
    · rw [if_neg h2]
  · rw [if_neg h1]
    by_cases h2 : o.value = s.value
    · rw [if_pos h2, if_pos (Or.inl h2)]
    · rw [if_neg h2, if_neg (by tauto)]

theorem syncLoop_flagValues (env : Env) (sel : List Opt) (vs : List Str)
    (os : List NativeOption) (d : Nat) (hu : (os.map NativeOption.value).Nodup)
    (ha : ∀ o ∈ os, o.valueAttr = some o.value)
    (hs : ∀ s ∈ sel, s.value ∈ os.map NativeOption.value)
    (hsafe : ∀ s ∈ sel, selectorSafe s.value = true) :
    syncLoop env ⟨flagValues vs os, true, d⟩ sel
      = (⟨flagValues (sel.reverse.map Opt.value ++ vs) os, true, d⟩, false) := by
  induction sel generalizing vs with
  | nil => rfl
  | cons s sel ih =>
    unfold syncLoop
    rw [syncOne_flagValues env vs os d s hu ha (hs s (List.mem_cons_self _ _))
      (hsafe s (List.mem_cons_self _ _))]
    show syncLoop env ⟨flagValues (s.value :: vs) os, true, d⟩ sel = _
    rw [ih (s.value :: vs) (fun t ht => hs t (List.mem_cons_of_mem _ ht))
      (fun t ht => hsafe t (List.mem_cons_of_mem _ ht))]
    simp

theorem flagValues_nil (os : List NativeOption) : flagValues [] os = os := by
  unfold flagValues
  conv_rhs => rw [← List.map_id os]
  apply List.map_congr_left
  intro o _
  simp

theorem selectedOptions_flagValues_clear (vs : List Str) (os : List NativeOption) :
    selectedOptions (flagValues vs (os.map (fun o => { o with selected := false })))
      = (os.filter (fun o => o.value ∈ vs)).map toOpt := by
  induction os with
  | nil => rfl
  | cons o os ih =>
    have h : flagValues vs ((o :: os).map (fun o => { o with selected := false }))
        = (if o.value ∈ vs then ({ o with selected := true } : NativeOption)
            else { o with selected := false })
          :: flagValues vs (os.map (fun o => { o with selected := false })) := rfl
    rw [h]
    unfold selectedOptions at ih ⊢
    by_cases hv : o.value ∈ vs
    · rw [if_pos hv, List.filter_cons_of_pos (by simp), List.map_cons, ih,
        List.filter_cons_of_pos (by simpa using hv), List.map_cons]
      rfl
    · rw [if_neg hv, List.filter_cons_of_neg (by simp), ih,
        List.filter_cons_of_neg (by simpa using hv)]

theorem filter_of_sublist (os : List NativeOption) (sel : List Opt)
    (hu : (os.map NativeOption.value).Nodup) (hs : sel.Sublist (os.map toOpt)) :
    (os.filter (fun o => o.value ∈ sel.map Opt.value)).map toOpt = sel := by
  induction os generalizing sel with
  | nil =>
    rw [List.map_nil, List.sublist_nil] at hs
    subst hs
    rfl
  | cons o os ih =>
    rw [List.map_cons, List.nodup_cons] at hu
    have hsub : ∀ l : List Opt, l.Sublist (os.map toOpt) → o.value ∉ l.map Opt.value := by
      intro l hl hmem
      apply hu.1
      have := (hl.map Opt.value).subset hmem
      rw [List.map_map] at this
      exact this
    rw [List.map_cons] at hs
    cases hs with
    | cons _ h =>
      rw [List.filter_cons_of_neg (by simpa using hsub sel h)]
      exact ih sel hu.2 h
    | cons₂ _ h =>
      rename_i sel1
      rw [List.filter_cons_of_pos (by simp [toOpt]), List.map_cons]
      congr 1
      have hcongr : os.filter (fun a => decide (a.value ∈ (toOpt o :: sel1).map Opt.value))
          = os.filter (fun a => decide (a.value ∈ sel1.map Opt.value)) := by
        apply List.filter_congr
        intro a hmem
        have hne : a.value ≠ o.value := by
          intro e
          apply hu.1
          rw [← e]
          exact List.mem_map_of_mem _ hmem
        simp [toOpt, hne]
      rw [hcongr]
      exact ih sel1 hu.2 h

theorem sync_roundtrip_of_sublist (env : Env) (w : Widget)
    (hm : w.selectEl.multiple = true)
    (hsafe : ∀ s ∈ w.selected, selectorSafe s.value = true)
    (ha : ∀ o ∈ w.selectEl.options, o.valueAttr = some o.value)
    (hu : (w.selectEl.options.map NativeOption.value).Nodup)
    (hs : w.selected.Sublist (w.selectEl.options.map toOpt)) :
    (syncFromSelect (syncToSelect env w)).selected = w.selected := by
  rw [syncFromSelect_selected]
  have hel : w.selectEl = ⟨w.selectEl.options, true, w.selectEl.displaySize⟩ := by
    rw [← hm]
  revert ha hu hs
  generalize w.selectEl.options = os at hel
  generalize w.selectEl.displaySize = d at hel
  intro ha hu hs
  have hcl : (os.map (fun o => ({ o with selected := false } : NativeOption))).map
      NativeOption.value = os.map NativeOption.value := by
    rw [List.map_map]
    rfl
  have ha1 : ∀ o ∈ os.map (fun o => ({ o with selected := false } : NativeOption)),
      o.valueAttr = some o.value := by
    intro o ho
    rw [List.mem_map] at ho
    obtain ⟨a, hmem, rfl⟩ := ho
    exact ha a hmem
  have hmem : ∀ s ∈ w.selected,
      s.value ∈ (os.map (fun o => ({ o with selected := false } : NativeOption))).map
        NativeOption.value := by
    intro s hs1
    rw [hcl]
    have := (hs.map Opt.value).subset (List.mem_map_of_mem Opt.value hs1)
    rw [List.map_map] at this
    exact this
  have h0 := syncLoop_flagValues env w.selected []
    (os.map (fun o => ({ o with selected := false } : NativeOption))) d
    (by rw [hcl]; exact hu) ha1 hmem hsafe
  rw [flagValues_nil] at h0
  show selectedOptions (syncLoop env (clearSelected w.selectEl) w.selected).1.options = _
  rw [hel, clearSelected_of_multiple, h0, List.append_nil]
  show selectedOptions (flagValues _ _) = _
  rw [selectedOptions_flagValues_clear]
  have hfilter : os.filter (fun o => decide (o.value ∈ w.selected.reverse.map Opt.value))
      = os.filter (fun o => decide (o.value ∈ w.selected.map Opt.value)) := by
    apply List.filter_congr
    intro a _
    simp
  rw [hfilter]
  exact filter_of_sublist _ _ hu hs

theorem modifyAt_unselect (b : Bool) (i : Nat) (os : List NativeOption) :
    (modifyAt (fun o => { o with selected := b }) i os).map unselect = os.map unselect := by
  induction os generalizing i with
  | nil => cases i <;> rfl
  | cons o os ih =>
    cases i with
    | zero => rfl
    | succ j =>
      show unselect o :: (modifyAt _ j os).map unselect = _
      rw [ih j]
      rfl

theorem selectOnly_unselect (i : Nat) (os : List NativeOption) :
    (selectOnly i os).map unselect = os.map unselect := by
  induction os generalizing i with
  | nil => cases i <;> rfl
  | cons o os ih =>
    cases i with
    | zero =>
      show unselect _ :: (os.map _).map unselect = _
      rw [List.map_map]
      rfl
    | succ j =>
      show unselect _ :: (selectOnly j os).map unselect = _
      rw [ih j]
      rfl

theorem setSelected_unselect (el : SelectElement) (i : Nat) (b : Bool) :
    (setSelected el i b).options.map unselect = el.options.map unselect := by
  unfold setSelected
  split
  · split
    · rw [selectednessSetting_unselect]
      exact selectOnly_unselect i el.options
    · rw [selectednessSetting_unselect]
      exact modifyAt_unselect b i el.options
  · rfl

theorem clearFrom_unselect (n : Nat) (el : SelectElement) (i : Nat) :
    (clearFrom el i n).options.map unselect = el.options.map unselect := by
  induction n generalizing el i with
  | zero => rfl
  | succ n ih =>
    show (clearFrom (setSelected el i false) (i + 1) n).options.map unselect = _
    rw [ih, setSelected_unselect]

theorem firstIndex_of_mem {α : Type} (p : α → Bool) (l : List α) (a : α) (ha : a ∈ l)
    (hp : p a = true) : ∃ i, firstIndex p l = some i := by
  induction l with
  | nil => cases ha
  | cons b l ih =>
    unfold firstIndex
    by_cases hb : p b = true
    · exact ⟨0, by rw [if_pos hb]⟩
    · rw [if_neg hb]
      rcases List.mem_cons.1 ha with rfl | hmem
      · exact absurd hp hb
      · obtain ⟨j, hj⟩ := ih hmem
        exact ⟨j + 1, by rw [hj]; rfl⟩

theorem unselect_mem_of_map_eq (os os1 : List NativeOption)
    (h : os1.map unselect = os.map unselect) (a : NativeOption) (ha : a ∈ os) :
    ∃ a1 ∈ os1, unselect a1 = unselect a := by
  have : unselect a ∈ os1.map unselect := by
    rw [h]
    exact List.mem_map_of_mem _ ha
  rw [List.mem_map] at this
  exact this

theorem valueAttr_of_unselect (a b : NativeOption) (h : unselect a = unselect b) :
    a.valueAttr = b.valueAttr := by
  have hv : (unselect a).valueAttr = (unselect b).valueAttr := by rw [h]
  exact hv

theorem toOpt_of_unselect (a b : NativeOption) (h : unselect a = unselect b) :
    toOpt a = toOpt b := by
  have ht : (unselect a).textContent = (unselect b).textContent := by rw [h]
  have ht1 : a.textContent = b.textContent := ht
  have hv := valueAttr_of_unselect a b h
  unfold toOpt NativeOption.value NativeOption.text
  rw [ht1, hv]

theorem sync_roundtrip_of_single (env : Env) (w : Widget) (s : Opt)
    (hm : w.selectEl.multiple = false) (hsel : w.selected = [s])
    (hsafe : selectorSafe s.value = true)
    (ha : ∀ o ∈ w.selectEl.options, o.valueAttr = some o.value)
    (hu : (w.selectEl.options.map NativeOption.value).Nodup)
    (hs : s ∈ w.selectEl.options.map toOpt) :
    (syncFromSelect (syncToSelect env w)).selected = w.selected := by
  rw [syncFromSelect_selected]
  show selectedOptions (syncLoop env (clearSelected w.selectEl) w.selected).1.options = _
  rw [hsel]
  have hcm : (clearSelected w.selectEl).multiple = false := by
    unfold clearSelected
    rw [clearFrom_multiple, hm]
  have hcu : (clearSelected w.selectEl).options.map unselect
      = w.selectEl.options.map unselect := clearFrom_unselect _ _ _
  rw [List.mem_map] at hs
  obtain ⟨a, hamem, hat⟩ := hs
  have hav : a.value = s.value := by rw [← hat]; rfl
  obtain ⟨a1, ha1mem, ha1⟩ := unselect_mem_of_map_eq _ _ hcu a hamem
  have ha1v : a1.valueAttr = some s.value := by
    have : a1.valueAttr = a.valueAttr := valueAttr_of_unselect a1 a ha1
    rw [this, ha a hamem, hav]
  obtain ⟨i, hi⟩ := firstIndex_of_mem (fun o => decide (o.valueAttr = some s.value))
    (clearSelected w.selectEl).options a1 ha1mem (by simpa using ha1v)
  obtain ⟨o, ho, hp⟩ := firstIndex_getElem _ _ _ hi
  have hov : o.valueAttr = some s.value := of_decide_eq_true hp
  have hone : syncOne env (clearSelected w.selectEl) s
      = some (setSelected (clearSelected w.selectEl) i true) := by
    unfold syncOne queryOptionByValue
    rw [if_pos hsafe, hi]
  have hloop : syncLoop env (clearSelected w.selectEl) [s]
      = (setSelected (clearSelected w.selectEl) i true, false) := by
    unfold syncLoop
    rw [hone]
    rfl
  rw [hloop, setSelected_of_single _ i o hcm ho]
  show List.map toOpt (List.filter _ (selectOnly i _)) = _
  rw [selectOnly_filter _ i o ho]
  -- the option found is the native option `a`
  obtain ⟨b, hbmem, hb⟩ := unselect_mem_of_map_eq _ _ hcu.symm o (List.getElem?_mem ho)
  have hbv : b.value = a.value := by
    have : b.valueAttr = o.valueAttr := valueAttr_of_unselect b o hb
    rw [value_of_valueAttr b s.value (this.trans hov), hav]
  have hba : b = a := List.inj_on_of_nodup_map hu hbmem hamem hbv
  subst hba
  show [toOpt { o with selected := true }] = [s]
  rw [← hat, toOpt_of_unselect b o hb]
  rfl

/-! ### Round trip of Push and Pull -/

theorem valueAttr_eq_some_value (o : NativeOption) (h : o.valueAttr ≠ none) :
    o.valueAttr = some o.value := by
  unfold NativeOption.value
  cases hv : o.valueAttr with
  | none => exact absurd hv h
  | some v => rfl

/-- C1 (counterexample): B then A were selected in a multi-select listing A before B.
Push flags both native options, and Pull returns them in document order, A then B, which
is not the SelectionState B, A. -/
theorem sync_roundtrip_order_counterexample :
    orderSel.selected = [⟨"B".toList, "b".toList⟩, ⟨"A".toList, "a".toList⟩] ∧
    (syncFromSelect (syncToSelect asciiEnv orderSel)).selected
      = [⟨"A".toList, "a".toList⟩, ⟨"B".toList, "b".toList⟩] ∧
    (syncFromSelect (syncToSelect asciiEnv orderSel)).selected ≠ orderSel.selected := by
  decide

/-- C1 (amended): let every SelectionState value be free of double quotes, backslashes,
line breaks and NUL, and let the native control have `multiple` or SelectionState hold
exactly one entry. Then `syncToSelect` returns without throwing; afterwards a value is the
value of a flagged native option exactly when it is the value of a SelectionState entry;
`syncFromSelect` run next reads back the flagged native options in document order, each as
`{label: text, value}`, so with that same set of values; and it reads back the very
sequence SelectionState held when every native option has a `value` attribute, the native
values are pairwise distinct and SelectionState lists native options, as
`{label: text, value}`, in document order. -/
theorem sync_roundtrip_values (env : Env) (w : Widget)
    (hsafe : ∀ s ∈ w.selected, selectorSafe s.value = true)
    (hmode : w.selectEl.multiple = true ∨ ∃ s, w.selected = [s]) :
    syncToSelectThrows env w = false ∧
    (∀ v, v ∈ selectedValues (syncToSelect env w).selectEl.options
      ↔ v ∈ w.selected.map Opt.value) ∧
    (syncFromSelect (syncToSelect env w)).selected
      = ((syncToSelect env w).selectEl.options.filter (fun o => o.selected)).map
          (fun o => { label := o.text, value := o.value }) ∧
    (∀ v, v ∈ (syncFromSelect (syncToSelect env w)).selected.map Opt.value
      ↔ v ∈ w.selected.map Opt.value) ∧
    ((∀ o ∈ w.selectEl.options, o.valueAttr ≠ none) →
      (w.selectEl.options.map NativeOption.value).Nodup →
      w.selected.Sublist (w.selectEl.options.map toOpt) →
      (syncFromSelect (syncToSelect env w)).selected = w.selected) := by
  have hvals : syncToSelectThrows env w = false ∧
      ∀ v, v ∈ selectedValues (syncToSelect env w).selectEl.options
        ↔ v ∈ w.selected.map Opt.value := by
    cases hm : w.selectEl.multiple with
    | true => exact syncToSelect_of_multiple env w hm hsafe
    | false =>
      rcases hmode with hmode | ⟨s, hs⟩
      · rw [hm] at hmode
        cases hmode
      · have hne : w.selected ≠ [] := by rw [hs]; simp
        obtain ⟨h1, h2⟩ := syncToSelect_of_single env w hm hne hsafe
        refine ⟨h1, ?_⟩
        intro v
        rw [h2]
        simp only [hs, List.getLast_singleton, List.map_cons, List.map_nil]
  refine ⟨hvals.1, hvals.2, ?_, ?_, ?_⟩
  · rw [syncFromSelect_selected]
    rfl
  · intro v
    rw [syncFromSelect_selected]
    exact hvals.2 v
  · intro ha hu hs
    have ha1 : ∀ o ∈ w.selectEl.options, o.valueAttr = some o.value :=
      fun o ho => valueAttr_eq_some_value o (ha o ho)
    cases hm : w.selectEl.multiple with
    | true => exact sync_roundtrip_of_sublist env w hm hsafe ha1 hu hs
    | false =>
      rcases hmode with hmode | ⟨s, hsel⟩
      · rw [hm] at hmode
        cases hmode
      · rw [hsel, List.singleton_sublist] at hs
        exact sync_roundtrip_of_single env w s hm hsel
          (hsafe s (by rw [hsel]; exact List.mem_singleton.2 rfl)) ha1 hu hs

/-- C1 witness: with A and B selected in document order in a multi-select the round trip
is exact. -/
theorem sync_roundtrip_values_witness :
    (syncFromSelect (syncToSelect asciiEnv twoSelected)).selected = twoSelected.selected :=
  (sync_roundtrip_values asciiEnv twoSelected (by decide) (Or.inl (by decide))).2.2.2.2
    (by decide) (by decide) (by decide)

/-! ### Outside these conditions -/

/-- A control without `multiple` keeps one flag: after a creation in single mode
SelectionState holds A and zz, the native control only zz. -/
theorem single_select_keeps_one_flag :
    (handleKeys asciiEnv singleTyped Key.enter).selected.map Opt.value
      = ["a".toList, "zz".toList] ∧
    selectedValues (handleKeys asciiEnv singleTyped Key.enter).selectEl.options
      = ["zz".toList] := by
  decide

/-- A value with a double quote makes `querySelector` throw: creating `say "hi"` appends
the entry to SelectionState, but the native control gets no option for it, and `close` is
not reached, so the search text stays. -/
theorem createAndSelect_quote_throws :
    selectedValues quoteTyped.selectEl.options = ["a".toList] ∧
    enterCall quoteTyped = Call.createAndSelect "say \"hi\"".toList ∧
    (handleKeys asciiEnv quoteTyped Key.enter).selected.map Opt.value
      = ["a".toList, "say_\"hi\"".toList] ∧
    selectedValues (handleKeys asciiEnv quoteTyped Key.enter).selectEl.options
      = ["a".toList] ∧
    (handleKeys asciiEnv quoteTyped Key.enter).inputValue = "say \"hi\"".toList := by
  decide

/-- A created option is read back with its text stripped and collapsed: the label
"a  b" comes back as "a b". -/
theorem created_label_read_back_collapsed :
    (createAndSelect asciiEnv createStart "a  b".toList).selected
      = [⟨"a  b".toList, "a_b".toList⟩] ∧
    (syncFromSelect (createAndSelect asciiEnv createStart "a  b".toList)).selected
      = [⟨"a b".toList, "a_b".toList⟩] := by
  decide

/-! ## Filter engine -/

theorem includes_iff (s t : Str) : includes s t = true ↔ t <:+: s := by
  induction s with
  | nil =>
    simp only [includes, List.isPrefixOf_iff_prefix, List.prefix_nil, List.infix_nil]
  | cons c s ih =>
    simp only [includes, Bool.or_eq_true, ih, List.isPrefixOf_iff_prefix, List.infix_cons_iff]

@[simp] theorem renderOptions_filteredOptions (env : Env) (w : Widget) :
    (renderOptions env w).filteredOptions = w.filteredOptions := by
  unfold renderOptions; split
  · rfl
  · split <;> rfl

theorem filter_filteredOptions (env : Env) (w : Widget) (term : Str) :
    (filter env w term).filteredOptions
      = w.options.filter (fun opt => includes (env.toLowerCase opt.label) (trim (env.toLowerCase term))) := by
  simp [filter]

/-- C2 (counterexample): the Catalog holds "Apple" and the search string is "App "
with a trailing blank. The option is in the FilteredView, but "apple" does not contain
"app ". -/
theorem filter_untrimmed_counterexample :
    ¬ (∀ o ∈ (filter asciiEnv appleStart "App ".toList).filteredOptions,
        o ∈ appleStart.options ∧
        asciiEnv.toLowerCase "App ".toList <:+: asciiEnv.toLowerCase o.label) := by
  intro h
  have h1 := (h ⟨"Apple".toList, "apple".toList⟩ (by decide)).2
  rw [← includes_iff] at h1
  revert h1
  decide

/-- C2 (amended): every option of the FilteredView computed by `filter term` is an element
of the Catalog, and its lowercased label contains the lowercased search string with the
whitespace at both ends trimmed off. -/
theorem filter_sound (env : Env) (w : Widget) (term : Str) (o : Opt)
    (ho : o ∈ (filter env w term).filteredOptions) :
    o ∈ w.options ∧ trim (env.toLowerCase term) <:+: env.toLowerCase o.label := by
  rw [filter_filteredOptions, List.mem_filter] at ho
  exact ⟨ho.1, (includes_iff _ _).1 ho.2⟩

/-- C2 witness: "Apple" is found by "App " and contains "app". -/
theorem filter_sound_witness :
    (⟨"Apple".toList, "apple".toList⟩ : Opt) ∈ appleStart.options ∧
    trim (asciiEnv.toLowerCase "App ".toList) <:+: asciiEnv.toLowerCase "Apple".toList :=
  filter_sound asciiEnv appleStart "App ".toList ⟨"Apple".toList, "apple".toList⟩ (by decide)

/-! ## Uniqueness and single-mode size under `select`, tag removal and Backspace -/

/-- `select`, tag removal and Backspace keep SelectionState values pairwise distinct. -/
theorem selection_unique_preserved (env : Env) (w : Widget) (opt : Opt)
    (h : (w.selected.map Opt.value).Nodup) :
    ((select env w opt).selected.map Opt.value).Nodup ∧
    ((removeTag env w opt).selected.map Opt.value).Nodup ∧
    ((handleKeys env w Key.backspace).selected.map Opt.value).Nodup := by
  refine ⟨?_, ?_, ?_⟩
  · rw [select_selected]
    by_cases hm : w.multiple = true
    · rw [if_pos hm]
      by_cases hs : w.selected.any (fun s => decide (s.value = opt.value)) = true
      · rw [if_pos hs]
        exact h
      · rw [if_neg hs, List.map_append, List.nodup_append]
        refine ⟨h, by simp, ?_⟩
        intro a ha hb
        simp only [List.map_cons, List.map_nil, List.mem_singleton] at hb
        subst hb
        exact hs ((any_value_iff _ _).2 ha)
    · rw [if_neg hm]
      simp
  · rw [removeTag_selected]
    exact h.sublist ((List.filter_sublist _).map _)
  · rw [backspace_selected]
    split
    · exact h.sublist ((List.dropLast_sublist _).map _)
    · exact h

/-- In single mode `select` leaves one entry, tag removal does not add one and Backspace
changes nothing. -/
theorem single_mode_size_preserved (env : Env) (w : Widget) (opt : Opt)
    (hm : w.multiple = false) (h : w.selected.length ≤ 1) :
    (select env w opt).selected.length = 1 ∧
    (removeTag env w opt).selected.length ≤ 1 ∧
    (handleKeys env w Key.backspace).selected = w.selected := by
  refine ⟨?_, ?_, ?_⟩
  · rw [select_selected, hm]
    rfl
  · rw [removeTag_selected]
    exact le_trans (List.length_filter_le _ _) h
  · rw [backspace_selected, if_neg]
    rintro ⟨hm1, -⟩
    rw [hm] at hm1
    cases hm1

/-! ## Enter dispatch on rendered rows -/

theorem jsIndex_natCast {α : Type} (xs : List α) (i : Nat) : jsIndex xs (i : Int) = xs[i]? := by
  unfold jsIndex
  rw [if_neg (by omega)]
  rfl

theorem jsIndex_neg {α : Type} (xs : List α) (i : Int) (h : i < 0) : jsIndex xs i = none := by
  unfold jsIndex
  rw [if_pos h]

theorem enterCall_of_no_row (w : Widget) (h : jsIndex w.optionEls w.currentIndex = none) :
    enterCall w = Call.nothing := by
  unfold enterCall
  rw [h]

theorem renderOptions_create_row (env : Env) (w : Widget)
    (hf : w.filteredOptions = []) (hc : w.creatable = true) (hi : trim w.inputValue ≠ []) :
    (renderOptions env w).optionEls
      = [{ textContent := "+ Create \"".toList ++ w.inputValue ++ "\"".toList,
           onClick := RowClick.createFromInput }] := by
  unfold renderOptions
  rw [if_pos ⟨by rw [hf]; rfl, hc, hi⟩]

theorem renderOptions_no_results (env : Env) (w : Widget)
    (hf : w.filteredOptions = []) (hc : ¬ (w.creatable = true ∧ trim w.inputValue ≠ [])) :
    (renderOptions env w).optionEls
      = [{ textContent := "No options found".toList, onClick := RowClick.nothing }] := by
  unfold renderOptions
  rw [if_neg (fun h => hc h.2), if_pos (by rw [hf]; rfl)]

theorem renderOptions_rows (env : Env) (w : Widget) (hf : w.filteredOptions ≠ []) :
    (renderOptions env w).optionEls = w.filteredOptions.map (fun opt =>
        { textContent :=
            if trim w.inputValue ≠ [] then env.markedText w.inputValue opt.label
            else opt.label,
          onClick := RowClick.select opt }) := by
  have hl : ¬ w.filteredOptions.length = 0 := by
    intro h
    exact hf (List.length_eq_zero.1 h)
  unfold renderOptions
  rw [if_neg (fun h => hl h.1), if_neg hl]

@[simp] theorem renderOptions_inputValue (env : Env) (w : Widget) :
    (renderOptions env w).inputValue = w.inputValue := by
  unfold renderOptions; split
  · rfl
  · split <;> rfl

/-- Enter on rows that `renderOptions` produced: nothing without a highlight, the creation
call on the create row, nothing on the "No options found" row, and on a FilteredView row
whose text does not start with "+ Create" the selection of the entry at that index. -/
theorem enterCall_rendered (env : Env) (w : Widget) (i : Nat) :
    (enterCall { renderOptions env w with currentIndex := -1 } = Call.nothing) ∧
    (w.filteredOptions = [] → w.creatable = true → trim w.inputValue ≠ [] →
      enterCall { renderOptions env w with currentIndex := 0 }
        = Call.createAndSelect w.inputValue) ∧
    (w.filteredOptions = [] → ¬ (w.creatable = true ∧ trim w.inputValue ≠ []) →
      enterCall { renderOptions env w with currentIndex := (i : Int) } = Call.nothing) ∧
    (∀ opt r, w.filteredOptions[i]? = some opt → (renderOptions env w).optionEls[i]? = some r →
      startsWith r.textContent "+ Create".toList = false →
      enterCall { renderOptions env w with currentIndex := (i : Int) } = Call.select opt) := by
  refine ⟨?_, ?_, ?_, ?_⟩
  · exact enterCall_of_no_row _ (jsIndex_neg _ (-1) (by decide))
  · intro hf hc hi
    unfold enterCall
    show (match jsIndex (renderOptions env w).optionEls ((0 : Nat) : Int) with
      | none => Call.nothing
      | some active =>
        if startsWith active.textContent "+ Create".toList then
          Call.createAndSelect (renderOptions env w).inputValue
        else
          match jsIndex (renderOptions env w).filteredOptions ((0 : Nat) : Int) with
          | some opt => Call.select opt
          | none => Call.nothing) = _
    rw [jsIndex_natCast, renderOptions_create_row env w hf hc hi, renderOptions_inputValue]
    rfl
  · intro hf hc
    unfold enterCall
    show (match jsIndex (renderOptions env w).optionEls (i : Int) with
      | none => Call.nothing
      | some active =>
        if startsWith active.textContent "+ Create".toList then
          Call.createAndSelect (renderOptions env w).inputValue
        else
          match jsIndex (renderOptions env w).filteredOptions (i : Int) with
          | some opt => Call.select opt
          | none => Call.nothing) = _
    rw [jsIndex_natCast, jsIndex_natCast, renderOptions_no_results env w hf hc,
      renderOptions_filteredOptions, hf]
    cases i with
    | zero => rfl
    | succ n => rfl
  · intro opt r ho hr hs
    unfold enterCall
    show (match jsIndex (renderOptions env w).optionEls (i : Int) with
      | none => Call.nothing
      | some active =>
        if startsWith active.textContent "+ Create".toList then
          Call.createAndSelect (renderOptions env w).inputValue
        else
          match jsIndex (renderOptions env w).filteredOptions (i : Int) with
          | some opt => Call.select opt
          | none => Call.nothing) = _
    rw [jsIndex_natCast, jsIndex_natCast, hr, renderOptions_filteredOptions, ho]
    show (if startsWith r.textContent "+ Create".toList = true then _ else _) = _
    rw [hs]
    rfl

/-! ## SelectionState stays inside the Catalog -/

@[simp] theorem updateDisplay_filteredOptions (w : Widget) :
    (updateDisplay w).filteredOptions = w.filteredOptions := by
  unfold updateDisplay; split
  · rfl
  · split <;> rfl

@[simp] theorem updateDisplay_optionEls (w : Widget) :
    (updateDisplay w).optionEls = w.optionEls := by
  unfold updateDisplay; split
  · rfl
  · split <;> rfl

theorem catalogCovers_of_fields (w w1 : Widget) (h : CatalogCovers w)
    (hs : ∀ s ∈ w1.selected, s ∈ w.selected) (ho : w1.options = w.options)
    (hf : w1.filteredOptions = w.filteredOptions) (hr : w1.optionEls = w.optionEls) :
    CatalogCovers w1 := by
  unfold CatalogCovers
  rw [ho, hf, hr]
  exact ⟨fun s hs1 => h.1 s (hs s hs1), h.2.1, h.2.2⟩

theorem renderOptions_listeners (env : Env) (w : Widget) (r : Row) (o : Opt)
    (hr : r ∈ (renderOptions env w).optionEls) (ho : r.onClick = RowClick.select o) :
    o ∈ w.filteredOptions := by
  unfold renderOptions at hr
  split at hr
  · rw [List.mem_singleton] at hr
    subst hr
    cases ho
  · split at hr
    · rw [List.mem_singleton] at hr
      subst hr
      cases ho
    · rw [List.mem_map] at hr
      obtain ⟨opt, hopt, rfl⟩ := hr
      cases ho
      exact hopt

theorem catalogCovers_filter (env : Env) (w : Widget) (term : Str)
    (h : ∀ s ∈ w.selected, s.value ∈ w.options.map Opt.value) :
    CatalogCovers (filter env w term) := by
  have hsub : ∀ o ∈ (filter env w term).filteredOptions, o ∈ w.options := by
    intro o ho
    rw [filter_filteredOptions] at ho
    exact (List.mem_filter.1 ho).1
  refine ⟨?_, ?_, ?_⟩
  · rw [filter_selected, filter_options]
    exact h
  · rw [filter_options]
    exact hsub
  · intro r hr o ho
    rw [filter_options]
    apply hsub
    rw [filter_filteredOptions]
    exact renderOptions_listeners env _ r o hr ho

theorem catalogCovers_close (env : Env) (w : Widget)
    (h : ∀ s ∈ w.selected, s.value ∈ w.options.map Opt.value) :
    CatalogCovers (close env w) :=
  catalogCovers_filter env _ [] h

theorem catalogCovers_sync_update (env : Env) (w : Widget) (h : CatalogCovers w) :
    CatalogCovers (syncToSelect env (updateDisplay w)) :=
  catalogCovers_of_fields w _ h (fun s hs => by simpa using hs)
    (by simp) (by simp [syncToSelect]) (by simp [syncToSelect])

theorem catalogCovers_set_selected (w : Widget) (sel : List Opt) (h : CatalogCovers w)
    (hs : ∀ s ∈ sel, s.value ∈ w.options.map Opt.value) :
    CatalogCovers { w with selected := sel } :=
  ⟨hs, h.2.1, h.2.2⟩

theorem catalogCovers_select (env : Env) (w : Widget) (opt : Opt) (h : CatalogCovers w)
    (ho : opt ∈ w.options) : CatalogCovers (select env w opt) := by
  have hv : opt.value ∈ w.options.map Opt.value := List.mem_map_of_mem _ ho
  show CatalogCovers (syncToSelect env (updateDisplay
    (if w.multiple = true then
      (if ¬ (w.selected.any (fun s => decide (s.value = opt.value)) = true) then
        { w with selected := w.selected ++ [opt] }
      else w)
    else close env { w with selected := [opt] })))
  apply catalogCovers_sync_update
  split
  · split
    · apply catalogCovers_set_selected w _ h
      intro s hs
      rw [List.mem_append, List.mem_singleton] at hs
      rcases hs with hs | rfl
      · exact h.1 s hs
      · exact hv
    · exact h
  · apply catalogCovers_close
    intro s hs
    have hs1 : s ∈ [opt] := hs
    rw [List.mem_singleton] at hs1
    subst hs1
    exact hv

theorem catalogCovers_created (w : Widget) (newOpt : Opt) (h : CatalogCovers w) :
    CatalogCovers
      { (if ¬ (w.options.any (fun o => decide (o.value = newOpt.value)) = true) then
          { w with options := w.options ++ [newOpt] }
        else w) with
        selected := (if ¬ (w.options.any (fun o => decide (o.value = newOpt.value)) = true) then
          { w with options := w.options ++ [newOpt] }
        else w).selected ++ [newOpt] } := by
  by_cases ha : w.options.any (fun o => decide (o.value = newOpt.value)) = true
  · rw [if_neg (not_not.2 ha)]
    refine ⟨?_, h.2.1, h.2.2⟩
    intro s hs
    have hs1 : s ∈ w.selected ++ [newOpt] := hs
    rw [List.mem_append, List.mem_singleton] at hs1
    rcases hs1 with hs1 | rfl
    · exact h.1 s hs1
    · exact (any_value_iff _ _).1 ha
  · rw [if_pos ha]
    refine ⟨?_, ?_, ?_⟩
    · intro s hs
      have hs1 : s ∈ w.selected ++ [newOpt] := hs
      show s.value ∈ List.map Opt.value (w.options ++ [newOpt])
      rw [List.map_append, List.mem_append]
      rw [List.mem_append, List.mem_singleton] at hs1
      rcases hs1 with hs1 | rfl
      · exact Or.inl (h.1 s hs1)
      · exact Or.inr (List.mem_singleton.2 rfl)
    · intro o ho
      exact List.mem_append_left _ (h.2.1 o ho)
    · intro r hr o ho
      exact List.mem_append_left _ (h.2.2 r hr o ho)

theorem catalogCovers_updateDisplay (w : Widget) (h : CatalogCovers w) :
    CatalogCovers (updateDisplay w) :=
  catalogCovers_of_fields w _ h (fun s hs => by simpa using hs) (by simp) (by simp) (by simp)

theorem catalogCovers_sync_or_close (env : Env) (w : Widget) (h : CatalogCovers w) :
    CatalogCovers (if syncToSelectThrows env w = true then syncToSelect env w
      else close env (syncToSelect env w)) := by
  have h1 : CatalogCovers (syncToSelect env w) := ⟨h.1, h.2.1, h.2.2⟩
  split
  · exact h1
  · exact catalogCovers_close env _ h1.1

theorem catalogCovers_createAndSelect (env : Env) (w : Widget) (label : Str)
    (h : CatalogCovers w) : CatalogCovers (createAndSelect env w label) :=
  catalogCovers_sync_or_close env _ (catalogCovers_updateDisplay _
    (catalogCovers_created w { label := label, value := deriveValue env label } h))

theorem catalogCovers_removeTag (env : Env) (w : Widget) (opt : Opt) (h : CatalogCovers w) :
    CatalogCovers (removeTag env w opt) := by
  unfold removeTag
  apply catalogCovers_sync_update
  apply catalogCovers_set_selected w _ h
  intro s hs
  exact h.1 s (List.mem_filter.1 hs).1

theorem catalogCovers_moveIndex (w : Widget) (st : Int) (h : CatalogCovers w) :
    CatalogCovers (moveIndex w st) := by
  unfold moveIndex
  split
  · exact h
  · exact h

theorem enterCall_select_mem (w : Widget) (opt : Opt) (h : enterCall w = Call.select opt) :
    opt ∈ w.filteredOptions := by
  unfold enterCall at h
  split at h
  · cases h
  · split at h
    · cases h
    · split at h
      · rename_i o ho
        cases h
        unfold jsIndex at ho
        split at ho
        · cases ho
        · exact List.getElem?_mem ho
      · cases h

theorem catalogCovers_handleKeys (env : Env) (w : Widget) (k : Key) (h : CatalogCovers w) :
    CatalogCovers (handleKeys env w k) := by
  cases k with
  | arrowDown => exact catalogCovers_moveIndex w 1 h
  | arrowUp => exact catalogCovers_moveIndex w (-1) h
  | enter =>
    show CatalogCovers (runCall env w (enterCall w))
    cases hc : enterCall w with
    | nothing => exact h
    | createAndSelect label => exact catalogCovers_createAndSelect env w label h
    | select opt => exact catalogCovers_select env w opt h (h.2.1 _ (enterCall_select_mem w opt hc))
  | backspace =>
    show CatalogCovers (if w.multiple = true ∧ w.inputValue = [] ∧ w.selected.length > 0 then
      syncToSelect env (updateDisplay { w with selected := w.selected.dropLast }) else w)
    split
    · apply catalogCovers_sync_update
      apply catalogCovers_set_selected w _ h
      intro s hs
      exact h.1 s (List.mem_of_mem_dropLast hs)
    · exact h
  | other => exact h

theorem catalogCovers_step (env : Env) (w : Widget) (e : Event) (h : CatalogCovers w) :
    CatalogCovers (step env w e) := by
  cases e with
  | input text => exact catalogCovers_filter env _ text h.1
  | openClick => exact catalogCovers_filter env _ _ h.1
  | outsideClick => exact catalogCovers_close env w h.1
  | key k => exact catalogCovers_handleKeys env w k h
  | rowClick i =>
    show CatalogCovers (match w.optionEls[i]? with
      | some r => clickRow env w r
      | none => w)
    cases hr : w.optionEls[i]? with
    | none => exact h
    | some r =>
      show CatalogCovers (clickRow env w r)
      unfold clickRow
      cases hc : r.onClick with
      | createFromInput => exact catalogCovers_createAndSelect env w _ h
      | nothing => exact h
      | select opt =>
        exact catalogCovers_select env w opt h (h.2.2 r (List.getElem?_mem hr) opt hc)
  | tagClose i =>
    show CatalogCovers (match w.tags[i]? with
      | some opt => removeTag env w opt
      | none => w)
    cases w.tags[i]? with
    | none => exact h
    | some opt => exact catalogCovers_removeTag env w opt h

theorem catalogCovers_run (env : Env) (events : List Event) (w : Widget) (h : CatalogCovers w) :
    CatalogCovers (run env w events) := by
  induction events generalizing w with
  | nil => exact h
  | cons e events ih => exact ih _ (catalogCovers_step env w e h)

theorem catalogCovers_construct (env : Env) (els : List NativeOption) (multiple creatable : Bool)
    (hp : ∀ o ∈ els, o.selected = true → o.value ≠ []) :
    CatalogCovers (construct env els multiple creatable) := by
  unfold construct
  apply catalogCovers_filter
  intro s hs
  rw [syncFromSelect_selected] at hs
  simp only [syncFromSelect, updateDisplay_options]
  unfold selectedOptions at hs
  rw [List.mem_map] at hs
  obtain ⟨o, ho, rfl⟩ := hs
  rw [List.mem_filter] at ho
  rw [List.map_map, List.mem_map]
  exact ⟨o, List.mem_filter.2 ⟨ho.1, by simpa using hp o ho.1 ho.2⟩, rfl⟩

/-- When no selected native option has the empty value, every state reached from the
constructed widget by user events keeps every SelectionState value in the Catalog. -/
theorem selection_in_catalog_reachable (env : Env) (els : List NativeOption)
    (multiple creatable : Bool) (events : List Event)
    (hp : ∀ o ∈ els, o.selected = true → o.value ≠ []) :
    ∀ s ∈ (run env (construct env els multiple creatable) events).selected,
      s.value ∈ (run env (construct env els multiple creatable) events).options.map Opt.value :=
  (catalogCovers_run env events _ (catalogCovers_construct env els multiple creatable hp)).1

/-! ## Inputs on which the code departs from the stated contract -/

/-- C3 (failing input): the constructor leaves the empty-valued placeholder option out of
the Catalog, but `syncFromSelect` copies it into SelectionState when it is the selected
native option, so SelectionState holds a value no Catalog entry has. -/
theorem construct_placeholder_not_in_catalog :
    (construct asciiEnv placeholderNative false false).options = [⟨"A".toList, "a".toList⟩] ∧
    (construct asciiEnv placeholderNative false false).selected = [⟨"Select...".toList, []⟩] ∧
    ¬ (∀ s ∈ (construct asciiEnv placeholderNative false false).selected,
        s.value ∈ (construct asciiEnv placeholderNative false false).options.map Opt.value) := by
  decide

/-- C4 (failing input): SelectionState holds "A B" with value "a_b"; Enter on the create
row for "a  b" appends a second entry with value "a_b". -/
theorem createAndSelect_duplicates_value :
    (dupTyped.selected.map Opt.value).Nodup ∧
    enterCall dupTyped = Call.createAndSelect "a  b".toList ∧
    (handleKeys asciiEnv dupTyped Key.enter).selected
      = [⟨"A B".toList, "a_b".toList⟩, ⟨"a  b".toList, "a_b".toList⟩] ∧
    ¬ ((handleKeys asciiEnv dupTyped Key.enter).selected.map Opt.value).Nodup := by
  decide

/-- C5 (failing input): a single-mode widget with one selected option; Enter on the
create row appends the created option, leaving two entries in SelectionState. -/
theorem createAndSelect_single_mode_two_entries :
    singleTyped.multiple = false ∧ singleTyped.selected.length = 1 ∧
    enterCall singleTyped = Call.createAndSelect "zz".toList ∧
    (handleKeys asciiEnv singleTyped Key.enter).selected
      = [⟨"A".toList, "a".toList⟩, ⟨"zz".toList, "zz".toList⟩] ∧
    (handleKeys asciiEnv singleTyped Key.enter).selected.length = 2 := by
  decide

/-- C10 (failing input): the rendered rows are the two FilteredView entries and row 0,
labelled "+ Create account", is highlighted. Its click listener selects the option, but
Enter calls `createAndSelect` with the empty search text, which appends an empty option
to Catalog and SelectionState. -/
theorem enter_on_label_starting_with_create :
    labelHi.optionEls.map Row.onClick
      = labelHi.filteredOptions.map RowClick.select ∧
    jsIndex labelHi.filteredOptions labelHi.currentIndex
      = some ⟨"+ Create account".toList, "acct".toList⟩ ∧
    enterCall labelHi = Call.createAndSelect [] ∧
    (handleKeys asciiEnv labelHi Key.enter).selected = [⟨[], []⟩] ∧
    (labelHi.optionEls.map (fun r => (clickRow asciiEnv labelHi r).selected)).head?
      = some [⟨"+ Create account".toList, "acct".toList⟩] := by
  decide

end Buruvaali
